import Mathlib

/-!
Verification of the nfx-datetime calendar/time library against its specification.

The C++ sources are shallowly embedded: machine integers (`std::int64_t`,
`std::int32_t`) become `Int`, with C++ truncated division and remainder
rendered as `Int.tdiv` and `Int.tmod` (all values reached by the verified
code paths stay far away from the 64-bit overflow boundary, which is recorded
as range hypotheses on the theorems).  Strings become `List Char`.
`double` appears only in the `TimeSpan` factory functions; there it is
embedded as `ℚ` with exact arithmetic, which coincides with IEEE-754 binary64
evaluation whenever the argument and all intermediate values are exactly
representable (the concrete inputs used in theorems below are).
-/

namespace Nfx

namespace constants

/-- Constants.h: MILLISECONDS_PER_SECOND -/
def MILLISECONDS_PER_SECOND : Int := 1000

/-- Constants.h: SECONDS_PER_MINUTE -/
def SECONDS_PER_MINUTE : Int := 60

/-- Constants.h: SECONDS_PER_HOUR -/
def SECONDS_PER_HOUR : Int := SECONDS_PER_MINUTE * 60

/-- Constants.h: SECONDS_PER_DAY -/
def SECONDS_PER_DAY : Int := SECONDS_PER_HOUR * 24

/-- Constants.h: MINUTES_PER_HOUR -/
def MINUTES_PER_HOUR : Int := 60

/-- Constants.h: HOURS_PER_DAY -/
def HOURS_PER_DAY : Int := 24

/-- Constants.h: MIN_DATETIME_TICKS -/
def MIN_DATETIME_TICKS : Int := 0

/-- Constants.h: MAX_DATETIME_TICKS (9999-12-31T23:59:59.9999999) -/
def MAX_DATETIME_TICKS : Int := 3155378975999999999

/-- Constants.h: UNIX_EPOCH_TICKS -/
def UNIX_EPOCH_TICKS : Int := 621355968000000000

/-- Constants.h: MICROSOFT_FILETIME_EPOCH_TICKS -/
def MICROSOFT_FILETIME_EPOCH_TICKS : Int := 504911232000000000

/-- Constants.h: TICKS_PER_MICROSECOND -/
def TICKS_PER_MICROSECOND : Int := 10

/-- Constants.h: TICKS_PER_MILLISECOND -/
def TICKS_PER_MILLISECOND : Int := 10000

/-- Constants.h: TICKS_PER_SECOND -/
def TICKS_PER_SECOND : Int := TICKS_PER_MILLISECOND * 1000

/-- Constants.h: TICKS_PER_MINUTE -/
def TICKS_PER_MINUTE : Int := TICKS_PER_SECOND * 60

/-- Constants.h: TICKS_PER_HOUR -/
def TICKS_PER_HOUR : Int := TICKS_PER_MINUTE * 60

/-- Constants.h: TICKS_PER_DAY -/
def TICKS_PER_DAY : Int := TICKS_PER_HOUR * 24

/-- Constants.h: MIN_YEAR -/
def MIN_YEAR : Int := 1

/-- Constants.h: MAX_YEAR -/
def MAX_YEAR : Int := 9999

/-- Constants.h: DAYS_PER_400_YEARS -/
def DAYS_PER_400_YEARS : Int := 146097

/-- Constants.h: DAYS_PER_100_YEARS -/
def DAYS_PER_100_YEARS : Int := 36524

/-- Constants.h: DAYS_PER_4_YEARS -/
def DAYS_PER_4_YEARS : Int := 1461

/-- Constants.h: DAYS_PER_YEAR -/
def DAYS_PER_YEAR : Int := 365

end constants

/-- DateTime.inl: `DateTime::isLeapYear` — Gregorian rule.  C++ `%` on a
(possibly negative) `int32_t` is truncated remainder, i.e. `Int.tmod`. -/
def isLeapYear (year : Int) : Bool :=
  (year.tmod 4 == 0 && year.tmod 100 != 0) || year.tmod 400 == 0

/-- DateTime.inl: `DateTime::daysInMonth` — the switch statement rendered as
an if-chain; months outside 1..12 give 0. -/
def daysInMonth (year month : Int) : Int :=
  if month < 1 || 12 < month then 0
  else if month == 2 && isLeapYear year then 29
  else if month == 1 then 31
  else if month == 2 then 28
  else if month == 3 then 31
  else if month == 4 then 30
  else if month == 5 then 31
  else if month == 6 then 30
  else if month == 7 then 31
  else if month == 8 then 31
  else if month == 9 then 30
  else if month == 10 then 31
  else if month == 11 then 30
  else if month == 12 then 31
  else 0

namespace internal

/-- DateTime.cpp `dateComponentsFromTicks`: the month-finding `while` loop.
The C++ loop runs `month` from 1 while `month <= 12`, breaking as soon as
`totalDays < daysInMonth(year, month)`; it performs at most 12 iterations,
modelled here by the fuel argument (fuel 12, start month 1; exhausted fuel
corresponds to the loop exiting with `month == 13`). -/
def monthScan (year : Int) : Nat → Int → Int → Int × Int
  | 0, month, totalDays => (month, totalDays)
  | fuel + 1, month, totalDays =>
    let dim := daysInMonth year month
    if totalDays < dim then (month, totalDays)
    else monthScan year fuel (month + 1) (totalDays - dim)

/-- DateTime.cpp: `internal::dateComponentsFromTicks` — Gregorian
400/100/4/1-year cycle decomposition with the cap-at-3 corrections. -/
def dateComponentsFromTicks (ticks : Int) : Int × Int × Int :=
  let totalDays0 := ticks.tdiv constants.TICKS_PER_DAY
  let num400Years := totalDays0.tdiv constants.DAYS_PER_400_YEARS
  let td1 := totalDays0.tmod constants.DAYS_PER_400_YEARS
  let num100Years0 := td1.tdiv constants.DAYS_PER_100_YEARS
  let num100Years := if 3 < num100Years0 then 3 else num100Years0
  let td2 := td1 - num100Years * constants.DAYS_PER_100_YEARS
  let num4Years := td2.tdiv constants.DAYS_PER_4_YEARS
  let td3 := td2.tmod constants.DAYS_PER_4_YEARS
  let numYears0 := td3.tdiv constants.DAYS_PER_YEAR
  let numYears := if 3 < numYears0 then 3 else numYears0
  let td4 := td3 - numYears * constants.DAYS_PER_YEAR
  let year := 1 + num400Years * 400 + num100Years * 100 + num4Years * 4 + numYears
  let md := monthScan year 12 1 td4
  (year, md.1, md.2 + 1)

/-- DateTime.cpp: `internal::timeComponentsFromTicks`. -/
def timeComponentsFromTicks (ticks : Int) : Int × Int × Int × Int :=
  let timeTicks0 := ticks.tmod constants.TICKS_PER_DAY
  let hour := timeTicks0.tdiv constants.TICKS_PER_HOUR
  let timeTicks1 := timeTicks0.tmod constants.TICKS_PER_HOUR
  let minute := timeTicks1.tdiv constants.TICKS_PER_MINUTE
  let timeTicks2 := timeTicks1.tmod constants.TICKS_PER_MINUTE
  let second := timeTicks2.tdiv constants.TICKS_PER_SECOND
  let timeTicks3 := timeTicks2.tmod constants.TICKS_PER_SECOND
  let millisecond := timeTicks3.tdiv constants.TICKS_PER_MILLISECOND
  (hour, minute, second, millisecond)

/-- DateTime.cpp `dateToTicks`: the month-summation `for` loop
`for (m = 1; m < month; ++m) totalDays += daysInMonth(year, m)`,
modelled as a sum over the first `k` months (`k = max (month-1) 0`). -/
def addMonthDays (year : Int) : Nat → Int
  | 0 => 0
  | k + 1 => addMonthDays year k + daysInMonth year ((k : Int) + 1)

/-- DateTime.cpp: `internal::dateToTicks` — 400/100/4/1-year cycle
composition of `year - 1` plus month summation plus `day - 1`. -/
def dateToTicks (year month day : Int) : Int :=
  let y := year - 1
  let totalDays :=
    (y.tdiv 400) * constants.DAYS_PER_400_YEARS
    + ((y.tmod 400).tdiv 100) * constants.DAYS_PER_100_YEARS
    + (((y.tmod 400).tmod 100).tdiv 4) * constants.DAYS_PER_4_YEARS
    + (((y.tmod 400).tmod 100).tmod 4) * constants.DAYS_PER_YEAR
    + addMonthDays year (month - 1).toNat
    + day - 1
  totalDays * constants.TICKS_PER_DAY

/-- DateTime.cpp: `internal::timeToTicks`. -/
def timeToTicks (hour minute second millisecond : Int) : Int :=
  hour * constants.TICKS_PER_HOUR + minute * constants.TICKS_PER_MINUTE
    + second * constants.TICKS_PER_SECOND
    + millisecond * constants.TICKS_PER_MILLISECOND

/-- DateTime.cpp: `internal::isValidDate`. -/
def isValidDate (year month day : Int) : Bool :=
  if year < constants.MIN_YEAR || constants.MAX_YEAR < year then false
  else if month < 1 || 12 < month then false
  else if day < 1 || daysInMonth year month < day then false
  else true

/-- DateTime.cpp: `internal::isValidTime`. -/
def isValidTime (hour minute second millisecond : Int) : Bool :=
  decide (0 ≤ hour) && decide (hour ≤ constants.HOURS_PER_DAY - 1) &&
  decide (0 ≤ minute) && decide (minute ≤ constants.MINUTES_PER_HOUR - 1) &&
  decide (0 ≤ second) && decide (second ≤ constants.SECONDS_PER_MINUTE - 1) &&
  decide (0 ≤ millisecond) && decide (millisecond ≤ constants.MILLISECONDS_PER_SECOND - 1)

end internal

/-- TimeSpan.h/.inl: the `TimeSpan` value type stores one signed 64-bit tick
count (`m_ticks`). -/
structure TimeSpan where
  m_ticks : Int
deriving DecidableEq

/-- TimeSpan.inl: `TimeSpan::ticks()`. -/
def TimeSpan.ticks (ts : TimeSpan) : Int := ts.m_ticks

/-- TimeSpan.inl: `TimeSpan::TimeSpan(std::int64_t)` — stores the raw tick
count unchanged. -/
def TimeSpan.ofTicks (ticks : Int) : TimeSpan := ⟨ticks⟩

/-- Truncation toward zero, the semantics of C++ `static_cast<std::int64_t>`
applied to a `double` (here: to an exactly-represented rational value). -/
def truncToInt (q : ℚ) : Int := if 0 ≤ q then ⌊q⌋ else -⌊-q⌋

/-- Round half away from zero, the semantics of C++ `std::round`. -/
def roundHalfAwayFromZero (q : ℚ) : Int :=
  if 0 ≤ q then ⌊q + 1/2⌋ else -⌊-q + 1/2⌋

/-- TimeSpan.inl: `TimeSpan::fromDays(double)` — multiply and truncate. -/
def TimeSpan.fromDays (days : ℚ) : TimeSpan :=
  ⟨truncToInt (days * (constants.TICKS_PER_DAY : ℚ))⟩

/-- TimeSpan.inl: `TimeSpan::fromHours(double)` — multiply and truncate. -/
def TimeSpan.fromHours (hours : ℚ) : TimeSpan :=
  ⟨truncToInt (hours * (constants.TICKS_PER_HOUR : ℚ))⟩

/-- TimeSpan.inl: `TimeSpan::fromMinutes(double)` — multiply and truncate. -/
def TimeSpan.fromMinutes (minutes : ℚ) : TimeSpan :=
  ⟨truncToInt (minutes * (constants.TICKS_PER_MINUTE : ℚ))⟩

/-- TimeSpan.inl: `TimeSpan::fromSeconds(double)` — multiply and truncate. -/
def TimeSpan.fromSeconds (seconds : ℚ) : TimeSpan :=
  ⟨truncToInt (seconds * (constants.TICKS_PER_SECOND : ℚ))⟩

/-- TimeSpan.inl: `TimeSpan::fromMilliseconds(double)` — multiply and
truncate. -/
def TimeSpan.fromMilliseconds (milliseconds : ℚ) : TimeSpan :=
  ⟨truncToInt (milliseconds * (constants.TICKS_PER_MILLISECOND : ℚ))⟩

/-- TimeSpan.inl: `TimeSpan::fromMicroseconds(double)` — multiply, apply
`std::round`, then cast (the cast of an integral double is exact). -/
def TimeSpan.fromMicroseconds (microseconds : ℚ) : TimeSpan :=
  ⟨roundHalfAwayFromZero (microseconds * (constants.TICKS_PER_MICROSECOND : ℚ))⟩

/-- DateTime.h/.inl: the `DateTime` value type stores one signed 64-bit tick
count (`m_ticks`). -/
structure DateTime where
  m_ticks : Int
deriving DecidableEq

/-- DateTime.inl: `DateTime::ticks()`. -/
def DateTime.ticks (dt : DateTime) : Int := dt.m_ticks

/-- DateTime.inl: `DateTime::DateTime()` — the default constructor stores
`MIN_DATETIME_TICKS`. -/
def DateTime.default : DateTime := ⟨constants.MIN_DATETIME_TICKS⟩

/-- DateTime.inl: `DateTime::DateTime(std::int64_t ticks)` — stores the raw
tick count unchanged (no clamping and no validation). -/
def DateTime.ofTicks (ticks : Int) : DateTime := ⟨ticks⟩

/-- DateTime.cpp: `DateTime::DateTime(year, month, day)` — out-of-range
components yield `MIN_DATETIME_TICKS`. -/
def DateTime.ofYMD (year month day : Int) : DateTime :=
  if !internal.isValidDate year month day then ⟨constants.MIN_DATETIME_TICKS⟩
  else ⟨internal.dateToTicks year month day⟩

/-- DateTime.cpp: `DateTime::DateTime(year, month, day, hour, minute,
second)`. -/
def DateTime.ofYMDHMS (year month day hour minute second : Int) : DateTime :=
  if !internal.isValidDate year month day || !internal.isValidTime hour minute second 0 then
    ⟨constants.MIN_DATETIME_TICKS⟩
  else ⟨internal.dateToTicks year month day + internal.timeToTicks hour minute second 0⟩

/-- DateTime.cpp: `DateTime::DateTime(year, month, day, hour, minute, second,
millisecond)`. -/
def DateTime.ofYMDHMSms (year month day hour minute second millisecond : Int) : DateTime :=
  if !internal.isValidDate year month day
      || !internal.isValidTime hour minute second millisecond then
    ⟨constants.MIN_DATETIME_TICKS⟩
  else ⟨internal.dateToTicks year month day
          + internal.timeToTicks hour minute second millisecond⟩

/-- DateTime.inl: `DateTime::operator+(const TimeSpan&)` — adds raw ticks,
with no clamping. -/
def DateTime.addSpan (dt : DateTime) (duration : TimeSpan) : DateTime :=
  ⟨dt.m_ticks + duration.ticks⟩

/-- DateTime.inl: `DateTime::operator-(const TimeSpan&)`. -/
def DateTime.subSpan (dt : DateTime) (duration : TimeSpan) : DateTime :=
  ⟨dt.m_ticks - duration.ticks⟩

/-- DateTime.inl: `DateTime::operator-(const DateTime&)`. -/
def DateTime.subDateTime (dt other : DateTime) : TimeSpan :=
  ⟨dt.m_ticks - other.m_ticks⟩

/-- DateTime.inl: `DateTime::min()`. -/
def DateTime.minValue : DateTime := ⟨constants.MIN_DATETIME_TICKS⟩

/-- DateTime.inl: `DateTime::max()`. -/
def DateTime.maxValue : DateTime := ⟨constants.MAX_DATETIME_TICKS⟩

/-- DateTime.cpp: `DateTime::isValid()`. -/
def DateTime.isValid (dt : DateTime) : Bool :=
  decide (constants.MIN_DATETIME_TICKS ≤ dt.m_ticks)
    && decide (dt.m_ticks ≤ constants.MAX_DATETIME_TICKS)

/-- DateTimeOffset.h/.inl: the `DateTimeOffset` value type stores a local
`DateTime` and a `TimeSpan` offset. -/
structure DateTimeOffset where
  m_dateTime : DateTime
  m_offset : TimeSpan
deriving DecidableEq

/-- DateTimeOffset.inl: `DateTimeOffset::utcTicks()` — the derived quantity
`local ticks − offset ticks`, recomputed on demand. -/
def DateTimeOffset.utcTicks (dto : DateTimeOffset) : Int :=
  dto.m_dateTime.ticks - dto.m_offset.ticks

/-- DateTimeOffset.cpp: `DateTimeOffset::utcDateTime()`. -/
def DateTimeOffset.utcDateTime (dto : DateTimeOffset) : DateTime :=
  DateTime.ofTicks dto.utcTicks

/-- DateTimeOffset.cpp: `DateTimeOffset::toOffset(newOffset)` — convert to
UTC, then apply the new offset. -/
def DateTimeOffset.toOffset (dto : DateTimeOffset) (newOffset : TimeSpan) : DateTimeOffset :=
  ⟨dto.utcDateTime.addSpan newOffset, newOffset⟩

/-- Decimal value of a digit character, as in `std::from_chars`. -/
def digitVal (c : Char) : Int := (c.toNat : Int) - 48

/-- Length of the maximal leading run of decimal digits. -/
def countDigits : List Char → Nat
  | [] => 0
  | c :: rest => if c.isDigit then countDigits rest + 1 else 0

/-- Value of a list of digit characters (most significant first). -/
def digitsVal : List Char → Int
  | [] => 0
  | c :: rest => digitVal c * (10 : Int) ^ rest.length + digitsVal rest

/-- `std::from_chars` for `std::int32_t` on a character window: an optional
leading `-`, then a maximal digit run (at least one digit); stops at the
first non-digit; fails on overflow.  Returns the value and the number of
characters consumed. -/
def fromCharsI32 (w : List Char) : Option (Int × Nat) :=
  match w with
  | '-' :: rest =>
    let n := countDigits rest
    if n = 0 then none
    else
      let v := -(digitsVal (rest.take n))
      if v < -2147483648 then none else some (v, n + 1)
  | _ =>
    let n := countDigits w
    if n = 0 then none
    else
      let v := digitsVal (w.take n)
      if 2147483647 < v then none else some (v, n)

/-- `std::string_view::find(c, start)`: first index `≥ start` holding `c`. -/
def findFrom (cs : List Char) (start : Nat) (c : Char) : Option Nat :=
  match (cs.drop start).findIdx? (· = c) with
  | some i => some (start + i)
  | none => none

/-- `std::string_view::find_last_of("+-")`: index of the last `+` or `-`. -/
def findLastSign : List Char → Option Nat
  | [] => none
  | c :: rest =>
    match findLastSign rest with
    | some p => some (p + 1)
    | none => if c = '+' || c = '-' then some 0 else none

/-- DateTime.cpp: the optional `T`-time tail of `DateTime::fromString`:
hour, minute, second and the optional fraction (already scaled to
100-nanosecond ticks); without a `T` everything is zero (midnight). -/
def parseTimeTail (cs : List Char) (p : Nat) : Option (Int × Int × Int × Int) :=
  if cs.get? p = some 'T' then
    let p := p + 1
    match fromCharsI32 ((cs.drop p).take (countDigits (cs.drop p))) with
    | none => none
    | some (hour, n4) =>
      let p := p + n4
      if cs.get? p ≠ some ':' then none
      else
        let p := p + 1
        match fromCharsI32 ((cs.drop p).take (countDigits (cs.drop p))) with
        | none => none
        | some (minute, n5) =>
          let p := p + n5
          if cs.get? p ≠ some ':' then none
          else
            let p := p + 1
            match fromCharsI32 ((cs.drop p).take (countDigits (cs.drop p))) with
            | none => none
            | some (second, n6) =>
              let p := p + n6
              if cs.get? p = some '.' then
                let p := p + 1
                let fractionDigits := min (countDigits (cs.drop p)) 7
                if 0 < fractionDigits then
                  let fractionValue := digitsVal ((cs.drop p).take fractionDigits)
                  some (hour, minute, second,
                    fractionValue * (10 : Int) ^ (7 - fractionDigits))
                else some (hour, minute, second, 0)
              else some (hour, minute, second, 0)
  else some (0, 0, 0, 0)

/-- DateTime.cpp: the time tail of `DateTime::fromString` followed by the
component validation and tick composition that close the function. -/
def fromStringTime (cs : List Char) (p : Nat) (year month day : Int) : Option Int :=
  match parseTimeTail cs p with
  | none => none
  | some (hour, minute, second, fractionalTicks) =>
    if internal.isValidDate year month day && internal.isValidTime hour minute second 0 then
      some (internal.dateToTicks year month day
        + internal.timeToTicks hour minute second 0 + fractionalTicks)
    else none
/-- DateTime.cpp: `DateTime::fromString(std::string_view, DateTime&)` — the
ISO-8601 parser built on `std::from_chars`, returning the parsed tick count
(`none` models the `return false` paths).  The input is pre-processed by
stripping a trailing `Z` and everything from the last `+`/`-` when that sign
sits past index 10; the `while` loops that advance `dayEnd`/`hourEnd`/… over
digits are modelled by `countDigits`, and the fraction-padding loop by a
multiplication with the matching power of ten. -/
def fromString (cs0 : List Char) : Option Int :=
  if cs0.length < 10 then none
  else
    let cs1 := if cs0.getLast? = some 'Z' then cs0.dropLast else cs0
    let cs :=
      match findLastSign cs1 with
      | some tzPos => if 10 < tzPos then cs1.take tzPos else cs1
      | none => cs1
    if cs.length < 4 then none
    else
      match fromCharsI32 (cs.take 4) with
      | none => none
      | some (year, n1) =>
        if n1 ≠ 4 then none
        else if cs.get? 4 ≠ some '-' then none
        else
          match findFrom cs 5 '-' with
          | none => none
          | some dashPos =>
            match fromCharsI32 ((cs.drop 5).take (dashPos - 5)) with
            | none => none
            | some (month, n2) =>
              if cs.get? (5 + n2) ≠ some '-' then none
              else
                let p3 := 5 + n2 + 1
                match fromCharsI32 ((cs.drop p3).take (countDigits (cs.drop p3))) with
                | none => none
                | some (day, n3) =>
                  fromStringTime cs (p3 + n3) year month day


/-- Character at index `i`, with a space as the out-of-range default. -/
def charAt (cs : List Char) (i : Nat) : Char := (cs.get? i).getD ' '

/-- Digit test at index `i` (false when out of range). -/
def isDigitAt (cs : List Char) (i : Nat) : Bool :=
  match cs.get? i with
  | some c => c.isDigit
  | none => false

/-- Digit test on every index of a list. -/
def digitsAt (cs : List Char) (ix : List Nat) : Bool := ix.all (isDigitAt cs)

/-- Numeric value of the `len` characters starting at index `i`. -/
def numAt (cs : List Char) (i len : Nat) : Int := digitsVal ((cs.drop i).take len)

/-- Modelled from the spec: the offset-suffix stripping of
`DateTime::tryParse`, whose definition is not part of the sources (only its
declaration and its call site in `DateTimeOffset::tryParse` are).  Spec
§4.3: a trailing `Z` or a `±HH:MM`/`±HHMM`/`±HH` suffix is stripped and
discarded. -/
def stripSpecSuffix (cs : List Char) : List Char :=
  let n := cs.length
  if 1 ≤ n && charAt cs (n - 1) = 'Z' then cs.take (n - 1)
  else if 6 ≤ n && (charAt cs (n - 6) = '+' || charAt cs (n - 6) = '-')
      && isDigitAt cs (n - 5) && isDigitAt cs (n - 4) && charAt cs (n - 3) = ':'
      && isDigitAt cs (n - 2) && isDigitAt cs (n - 1) then cs.take (n - 6)
  else if 5 ≤ n && (charAt cs (n - 5) = '+' || charAt cs (n - 5) = '-')
      && isDigitAt cs (n - 4) && isDigitAt cs (n - 3)
      && isDigitAt cs (n - 2) && isDigitAt cs (n - 1) then cs.take (n - 5)
  else if 3 ≤ n && (charAt cs (n - 3) = '+' || charAt cs (n - 3) = '-')
      && isDigitAt cs (n - 2) && isDigitAt cs (n - 1) then cs.take (n - 3)
  else cs

/-- The fixed-width `YYYY-MM-DD` shape of spec §4.3. -/
def specDateShape (cs : List Char) : Bool :=
  digitsAt cs [0, 1, 2, 3] && charAt cs 4 = '-' && digitsAt cs [5, 6]
    && charAt cs 7 = '-' && digitsAt cs [8, 9]

/-- The fixed-width `THH:MM:SS` shape of spec §4.3 (positions 10..18). -/
def specTimeShape (cs : List Char) : Bool :=
  charAt cs 10 = 'T' && digitsAt cs [11, 12] && charAt cs 13 = ':'
    && digitsAt cs [14, 15] && charAt cs 16 = ':' && digitsAt cs [17, 18]

/-- Modelled from the spec: the grammar core of `DateTime::tryParse`
(missing from the sources): `YYYY-MM-DD[THH:MM:SS[.fffffff]]`, the fraction
carrying at least one digit, digits beyond the seventh truncated and fewer
than seven right-padded with zeros.  Returns
`(year, month, day, hour, minute, second, fractional ticks)`. -/
def specCore (cs : List Char) : Option (Int × Int × Int × Int × Int × Int × Int) :=
  if cs.length = 10 && specDateShape cs then
    some (numAt cs 0 4, numAt cs 5 2, numAt cs 8 2, 0, 0, 0, 0)
  else if cs.length = 19 && specDateShape cs && specTimeShape cs then
    some (numAt cs 0 4, numAt cs 5 2, numAt cs 8 2,
      numAt cs 11 2, numAt cs 14 2, numAt cs 17 2, 0)
  else if 21 ≤ cs.length && specDateShape cs && specTimeShape cs
      && charAt cs 19 = '.' && (cs.drop 20).all Char.isDigit then
    some (numAt cs 0 4, numAt cs 5 2, numAt cs 8 2,
      numAt cs 11 2, numAt cs 14 2, numAt cs 17 2,
      numAt cs 20 (min (cs.length - 20) 7) * (10 : Int) ^ (7 - min (cs.length - 20) 7))
  else none

/-- Modelled from the spec: `DateTime::tryParse`, which the sources declare
and call from `DateTimeOffset::tryParse` but do not define.  Spec §4.3:
grammar `YYYY-MM-DD[THH:MM:SS[.fffffff]][Z|±HH:MM]` (also `±HHMM`/`±HH`),
the offset suffix stripped and discarded, missing time defaulting to
midnight, malformed input and out-of-range calendar values failing the
parse. -/
def dateTimeTryParse (cs0 : List Char) : Option Int :=
  match specCore (stripSpecSuffix cs0) with
  | none => none
  | some (y, m, d, h, mi, s, f) =>
    if internal.isValidDate y m d && internal.isValidTime h mi s 0 then
      some (internal.dateToTicks y m d + internal.timeToTicks h mi s 0 + f)
    else none

/-- DateTimeOffset.cpp `tryParse`: the right-to-left scan
`for (i = length; i > 10; --i)` looking for `Z`, `+` or `-` at `s[i-1]`. -/
def scanBack (cs : List Char) : Nat → Option Nat
  | 0 => none
  | i + 1 =>
    if i + 1 ≤ 10 then none
    else
      let c := charAt cs i
      if c = 'Z' || c = '+' || c = '-' then some i
      else scanBack cs i


/-- `std::string::find(c)`: index of the first occurrence of `c`. -/
def findIdxCh (c : Char) : List Char → Option Nat
  | [] => none
  | x :: rest => if x = c then some 0 else (findIdxCh c rest).map (· + 1)

/-- `std::stoi`: optional sign, then at least one digit (otherwise it
throws, modelled as `none`); parsing stops at the first non-digit;
int-range overflow also throws. -/
def stoiOpt (cs : List Char) : Option Int :=
  match cs with
  | '-' :: rest =>
    let n := countDigits rest
    if n = 0 then none
    else
      let v := -(digitsVal (rest.take n))
      if v < -2147483648 then none else some v
  | '+' :: rest =>
    let n := countDigits rest
    if n = 0 then none
    else
      let v := digitsVal (rest.take n)
      if 2147483647 < v then none else some v
  | _ =>
    let n := countDigits cs
    if n = 0 then none
    else
      let v := digitsVal (cs.take n)
      if 2147483647 < v then none else some v

/-- DateTimeOffset.cpp `tryParse`: the offset-designator branch.  Given the
substring starting at the designator sign, returns the offset tick count
when the designator is accepted (`none` models both `offsetParsed == false`
and a `std::stoi` throw).  `TimeSpan::fromMinutes(double)` on a whole-minute
value up to ±840 is exact, so it is the integer product with
`TICKS_PER_MINUTE`. -/
def parseOffsetString (offsetStr : List Char) : Option Int :=
  if 2 ≤ offsetStr.length then
    let isNegative := charAt offsetStr 0 = '-'
    let numericPart := offsetStr.drop 1
    let hm : Option (Int × Int) :=
      match findIdxCh ':' numericPart with
      | some colonPos =>
        if 0 < colonPos && colonPos < numericPart.length - 1 then
          match stoiOpt (numericPart.take colonPos), stoiOpt (numericPart.drop (colonPos + 1)) with
          | some hours, some minutes => some (hours, minutes)
          | _, _ => none
        else some (0, 0)
      | none =>
        if numericPart.length = 4 then
          match stoiOpt (numericPart.take 2), stoiOpt ((numericPart.drop 2).take 2) with
          | some hours, some minutes => some (hours, minutes)
          | _, _ => none
        else if numericPart.length = 2 || numericPart.length = 1 then
          match stoiOpt numericPart with
          | some hours => some (hours, 0)
          | none => none
        else some (0, 0)
    match hm with
    | none => none
    | some (hours, minutes) =>
      if 0 ≤ hours && 0 ≤ minutes && minutes ≤ 59 then
        let totalMinutes := hours * 60 + minutes
        if totalMinutes ≤ 840 then
          some ((if isNegative then -totalMinutes else totalMinutes) * constants.TICKS_PER_MINUTE)
        else none
      else none
  else none

/-- DateTimeOffset.cpp: `DateTimeOffset::tryParse` — right-to-left offset
designator scan past the 10-character date prefix, offset validation
(magnitude at most 840 minutes), then `DateTime::tryParse` on the remaining
string (the latter modelled from the spec, see `dateTimeTryParse`). -/
def DateTimeOffset.tryParse (cs : List Char) : Option DateTimeOffset :=
  match scanBack cs cs.length with
  | none =>
    match dateTimeTryParse cs with
    | some t => some ⟨⟨t⟩, ⟨0⟩⟩
    | none => none
  | some offsetPos =>
    if charAt cs offsetPos = 'Z' then
      match dateTimeTryParse (cs.take offsetPos) with
      | some t => some ⟨⟨t⟩, ⟨0⟩⟩
      | none => none
    else
      match parseOffsetString (cs.drop offsetPos) with
      | none => none
      | some offTicks =>
        match dateTimeTryParse (cs.take offsetPos) with
        | some t => some ⟨⟨t⟩, ⟨offTicks⟩⟩
        | none => none

/-- Decimal rendering of a natural number, most significant digit first, as
`std::ostringstream::operator<<` produces it ("0" for zero); fuel-based
recursion (20 digits cover every value in range). -/
def natToCharsAux : Nat → Nat → List Char
  | 0, _ => []
  | fuel + 1, n =>
    if n < 10 then [Nat.digitChar n]
    else natToCharsAux fuel (n / 10) ++ [Nat.digitChar (n % 10)]

/-- Decimal rendering of a natural number. -/
def natToChars (n : Nat) : List Char := natToCharsAux 20 n

/-- Decimal rendering of an integer (`operator<<` on an `int32_t`). -/
def intToChars (i : Int) : List Char :=
  if i < 0 then '-' :: natToChars (-i).toNat else natToChars i.toNat

/-- `oss << std::setfill('0') << std::setw(w) << i`: left-pad the decimal
rendering with zeros up to width `w` (wider values print in full). -/
def padded (w : Nat) (i : Int) : List Char :=
  List.replicate (w - (intToChars i).length) '0' ++ intToChars i

/-- DateTime.cpp `toString(Iso8601Extended)`: strip trailing zeros of the
fraction but keep at least one digit — `find_last_not_of('0')` followed by
`substr(0, pos+1)`, with the all-zero case mapped to "0". -/
def stripTrailingZeros (cs : List Char) : List Char :=
  let r := (cs.reverse.dropWhile (fun c => c = '0')).reverse
  if r.isEmpty then ['0'] else r

/-- DateTime.cpp: `DateTime::toString(Format::Iso8601Basic)` —
`YYYY-MM-DDTHH:MM:SSZ`. -/
def DateTime.toStringBasic (dt : DateTime) : List Char :=
  let c := internal.dateComponentsFromTicks dt.m_ticks
  let t := internal.timeComponentsFromTicks dt.m_ticks
  (padded 4 c.1 ++ ['-'] ++ padded 2 c.2.1 ++ ['-'] ++ padded 2 c.2.2 ++ ['T']
    ++ padded 2 t.1 ++ [':'] ++ padded 2 t.2.1 ++ [':'] ++ padded 2 t.2.2.1) ++ ['Z']

/-- DateTime.cpp: `DateTime::toString(Format::Iso8601Extended)` — as basic
but with `.fffffff` (trailing zeros stripped, at least one digit) before
the `Z`. -/
def DateTime.toStringExtended (dt : DateTime) : List Char :=
  let c := internal.dateComponentsFromTicks dt.m_ticks
  let t := internal.timeComponentsFromTicks dt.m_ticks
  let fractionalTicks := dt.m_ticks.tmod constants.TICKS_PER_SECOND
  (padded 4 c.1 ++ ['-'] ++ padded 2 c.2.1 ++ ['-'] ++ padded 2 c.2.2 ++ ['T']
    ++ padded 2 t.1 ++ [':'] ++ padded 2 t.2.1 ++ [':'] ++ padded 2 t.2.2.1
    ++ ['.'] ++ stripTrailingZeros (padded 7 fractionalTicks)) ++ ['Z']

/-- DateTimeOffset.inl: `DateTimeOffset::totalOffsetMinutes()` — the C++
`static_cast<std::int32_t>(m_offset.minutes())` truncates the double
quotient `ticks / TICKS_PER_MINUTE` toward zero; for offsets within ±14
hours both the tick count and the quotient are exact in binary64 and a
non-integer quotient is at least 1/TICKS_PER_MINUTE away from any integer,
so the cast equals truncated integer division. -/
def DateTimeOffset.totalOffsetMinutes (dto : DateTimeOffset) : Int :=
  dto.m_offset.m_ticks.tdiv constants.TICKS_PER_MINUTE

/-- DateTimeOffset.cpp: `internal::appendOffset` — `Z` for a zero offset,
`±HH:MM` otherwise. -/
def appendOffset (offsetMinutes : Int) : List Char :=
  if offsetMinutes = 0 then ['Z']
  else
    let absMinutes := if offsetMinutes < 0 then -offsetMinutes else offsetMinutes
    (if 0 ≤ offsetMinutes then '+' else '-')
      :: (padded 2 (absMinutes.tdiv 60) ++ [':'] ++ padded 2 (absMinutes.tmod 60))

/-- DateTimeOffset.cpp: `internal::formatIso8601` — date and time of the
local `DateTime`, for the extended format a fraction grouped as
3-digit milliseconds, then (when microseconds or nanoseconds are present)
3-digit microseconds, then (when nanoseconds are present) the single
100-nanosecond digit, omitted entirely when the fraction is zero; then the
offset designator. -/
def formatIso8601 (dto : DateTimeOffset) (extended : Bool) : List Char :=
  let c := internal.dateComponentsFromTicks dto.m_dateTime.m_ticks
  let t := internal.timeComponentsFromTicks dto.m_dateTime.m_ticks
  let ms := t.2.2.2
  let us := (dto.m_dateTime.m_ticks.tmod 10000).tdiv 10
  let ns := (dto.m_dateTime.m_ticks.tmod 10) * 100
  padded 4 c.1 ++ ['-'] ++ padded 2 c.2.1 ++ ['-'] ++ padded 2 c.2.2 ++ ['T']
    ++ padded 2 t.1 ++ [':'] ++ padded 2 t.2.1 ++ [':'] ++ padded 2 t.2.2.1
    ++ (if extended then
          (if 0 < ms || 0 < us || 0 < ns then
            ['.'] ++ padded 3 ms
              ++ (if 0 < us || 0 < ns then
                    padded 3 us ++ (if 0 < ns then padded 1 (ns.tdiv 100) else [])
                  else [])
          else [])
        else [])
    ++ appendOffset (DateTimeOffset.totalOffsetMinutes dto)

/-- Width-padded rendering of a natural number (`padded` on a nonnegative
value). -/
def padN (w n : Nat) : List Char :=
  List.replicate (w - (natToChars n).length) '0' ++ natToChars n

theorem tdiv_nonneg_eq (a b : Int) (ha : 0 ≤ a) (hb : 0 ≤ b) : a.tdiv b = a / b :=
  Int.tdiv_eq_ediv ha hb

theorem tmod_nonneg_eq (a b : Int) (ha : 0 ≤ a) (hb : 0 ≤ b) : a.tmod b = a % b :=
  Int.tmod_eq_emod ha hb

theorem cycle_extract (a c q v t : Int)
    (ha : 0 ≤ a) (hc : 0 ≤ c) (hc' : c ≤ 3) (hq : 0 ≤ q) (hq' : q ≤ 24)
    (hv : 0 ≤ v) (hv' : v ≤ 3) (ht : 0 ≤ t)
    (hsp : t < 365 ∨ (t = 365 ∧ v = 3 ∧ (q ≠ 24 ∨ c = 3))) :
    internal.dateComponentsFromTicks
        ((146097 * a + 36524 * c + 1461 * q + 365 * v + t) * constants.TICKS_PER_DAY)
      = (1 + a * 400 + c * 100 + q * 4 + v,
         (internal.monthScan (1 + a * 400 + c * 100 + q * 4 + v) 12 1 t).1,
         (internal.monthScan (1 + a * 400 + c * 100 + q * 4 + v) 12 1 t).2 + 1) := by
  have hr : 0 ≤ 146097 * a + 36524 * c + 1461 * q + 365 * v + t := by omega
  have hTPD : constants.TICKS_PER_DAY = 864000000000 := by decide
  unfold internal.dateComponentsFromTicks
  simp only [hTPD, constants.DAYS_PER_400_YEARS, constants.DAYS_PER_100_YEARS,
    constants.DAYS_PER_4_YEARS, constants.DAYS_PER_YEAR]
  have h0 : ((146097 * a + 36524 * c + 1461 * q + 365 * v + t) * 864000000000).tdiv 864000000000
      = 146097 * a + 36524 * c + 1461 * q + 365 * v + t := by
    rw [tdiv_nonneg_eq _ _ (by omega) (by omega)]
    omega
  rw [h0]
  have h1 : (146097 * a + 36524 * c + 1461 * q + 365 * v + t).tdiv 146097 = a := by
    rw [tdiv_nonneg_eq _ _ hr (by omega)]; omega
  have h2 : (146097 * a + 36524 * c + 1461 * q + 365 * v + t).tmod 146097
      = 36524 * c + 1461 * q + 365 * v + t := by
    rw [tmod_nonneg_eq _ _ hr (by omega)]; omega
  rw [h1, h2]
  rcases hsp with hA | ⟨ht365, hv3, hqc⟩
  · -- ordinary day inside the year: no capping triggers
    have e100 : (36524 * c + 1461 * q + 365 * v + t).tdiv 36524 = c := by
      rw [tdiv_nonneg_eq _ _ (by omega) (by omega)]; omega
    rw [e100, if_neg (by omega)]
    have e4 : (36524 * c + 1461 * q + 365 * v + t - c * 36524).tdiv 1461 = q := by
      rw [tdiv_nonneg_eq _ _ (by omega) (by omega)]; omega
    have e4m : (36524 * c + 1461 * q + 365 * v + t - c * 36524).tmod 1461 = 365 * v + t := by
      rw [tmod_nonneg_eq _ _ (by omega) (by omega)]; omega
    rw [e4, e4m]
    have e1 : (365 * v + t).tdiv 365 = v := by
      rw [tdiv_nonneg_eq _ _ (by omega) (by omega)]; omega
    rw [e1, if_neg (by omega)]
    rw [show (365 * v + t - v * 365 : Int) = t by ring]
  · rcases hqc with hq24 | hc3
    · -- December 31 of a leap year inside a century: only the 1-year cap triggers
      subst ht365 hv3
      have e100 : (36524 * c + 1461 * q + 365 * 3 + 365).tdiv 36524 = c := by
        rw [tdiv_nonneg_eq _ _ (by omega) (by omega)]; omega
      rw [e100, if_neg (by omega)]
      have e4 : (36524 * c + 1461 * q + 365 * 3 + 365 - c * 36524).tdiv 1461 = q := by
        rw [tdiv_nonneg_eq _ _ (by omega) (by omega)]; omega
      have e4m : (36524 * c + 1461 * q + 365 * 3 + 365 - c * 36524).tmod 1461 = 1460 := by
        rw [tmod_nonneg_eq _ _ (by omega) (by omega)]; omega
      rw [e4, e4m]
      have e1 : (1460 : Int).tdiv 365 = 4 := by decide
      rw [e1, if_pos (by omega)]
      norm_num
    · -- December 31 in the last century of the cycle (c = 3)
      subst ht365 hv3 hc3
      by_cases hq24 : q = 24
      · subst hq24
        norm_num
        have e100 : Int.tdiv 146096 36524 = 4 := by decide
        rw [e100]
        norm_num
        have e4 : Int.tdiv 36524 1461 = 24 := by decide
        have e4m : Int.tmod 36524 1461 = 1460 := by decide
        rw [e4, e4m]
        have e1 : Int.tdiv 1460 365 = 4 := by decide
        rw [e1]
        norm_num
      · have e100 : (36524 * 3 + 1461 * q + 365 * 3 + 365).tdiv 36524 = 3 := by
          rw [tdiv_nonneg_eq _ _ (by omega) (by omega)]; omega
        rw [e100, if_neg (by omega)]
        have e4 : (36524 * 3 + 1461 * q + 365 * 3 + 365 - 3 * 36524).tdiv 1461 = q := by
          rw [tdiv_nonneg_eq _ _ (by omega) (by omega)]; omega
        have e4m : (36524 * 3 + 1461 * q + 365 * 3 + 365 - 3 * 36524).tmod 1461 = 1460 := by
          rw [tmod_nonneg_eq _ _ (by omega) (by omega)]; omega
        rw [e4, e4m]
        have e1 : (1460 : Int).tdiv 365 = 4 := by decide
        rw [e1, if_pos (by omega)]
        norm_num

theorem monthScan_step_lt (y : Int) (fuel : Nat) (month td : Int)
    (h : td < daysInMonth y month) :
    internal.monthScan y (fuel + 1) month td = (month, td) := by
  rw [internal.monthScan]
  simp only [if_pos h]

theorem monthScan_step_ge (y : Int) (fuel : Nat) (month td : Int)
    (h : ¬ td < daysInMonth y month) :
    internal.monthScan y (fuel + 1) month td
      = internal.monthScan y fuel (month + 1) (td - daysInMonth y month) := by
  rw [internal.monthScan]
  simp only [if_neg h]

set_option maxHeartbeats 3200000 in
theorem monthScan_correct (y m d : Int) (hm : 1 ≤ m) (hm' : m ≤ 12)
    (hd : 1 ≤ d) (hd' : d ≤ daysInMonth y m) :
    internal.monthScan y 12 1 (internal.addMonthDays y (m - 1).toNat + (d - 1))
      = (m, d - 1) := by
  have h1 : daysInMonth y 1 = 31 := by norm_num [daysInMonth]
  have h3 : daysInMonth y 3 = 31 := by norm_num [daysInMonth]
  have h4 : daysInMonth y 4 = 30 := by norm_num [daysInMonth]
  have h5 : daysInMonth y 5 = 31 := by norm_num [daysInMonth]
  have h6 : daysInMonth y 6 = 30 := by norm_num [daysInMonth]
  have h7 : daysInMonth y 7 = 31 := by norm_num [daysInMonth]
  have h8 : daysInMonth y 8 = 31 := by norm_num [daysInMonth]
  have h9 : daysInMonth y 9 = 30 := by norm_num [daysInMonth]
  have h10 : daysInMonth y 10 = 31 := by norm_num [daysInMonth]
  have h11 : daysInMonth y 11 = 30 := by norm_num [daysInMonth]
  have h12 : daysInMonth y 12 = 31 := by norm_num [daysInMonth]
  cases hb : isLeapYear y
  · have h2 : daysInMonth y 2 = 28 := by simp [daysInMonth, hb]
    interval_cases m <;>
      (norm_num [internal.addMonthDays, h1, h2, h3, h4, h5, h6, h7, h8, h9, h10, h11, h12] at hd' ⊢) <;>
      (repeat
        first
        | rw [monthScan_step_lt _ _ _ _ (by norm_num [h1, h2, h3, h4, h5, h6, h7, h8, h9, h10, h11, h12]; omega)]
        | rw [monthScan_step_ge _ _ _ _ (by norm_num [h1, h2, h3, h4, h5, h6, h7, h8, h9, h10, h11, h12]; omega)]) <;>
      norm_num [h1, h2, h3, h4, h5, h6, h7, h8, h9, h10, h11, h12] <;>
      omega
  · have h2 : daysInMonth y 2 = 29 := by simp [daysInMonth, hb]
    interval_cases m <;>
      (norm_num [internal.addMonthDays, h1, h2, h3, h4, h5, h6, h7, h8, h9, h10, h11, h12] at hd' ⊢) <;>
      (repeat
        first
        | rw [monthScan_step_lt _ _ _ _ (by norm_num [h1, h2, h3, h4, h5, h6, h7, h8, h9, h10, h11, h12]; omega)]
        | rw [monthScan_step_ge _ _ _ _ (by norm_num [h1, h2, h3, h4, h5, h6, h7, h8, h9, h10, h11, h12]; omega)]) <;>
      norm_num [h1, h2, h3, h4, h5, h6, h7, h8, h9, h10, h11, h12] <;>
      omega

theorem isLeapYear_iff (y : Int) (hy : 1 ≤ y) :
    isLeapYear y = true ↔ (y % 4 = 0 ∧ (y % 100 ≠ 0 ∨ y % 400 = 0)) := by
  unfold isLeapYear
  rw [tmod_nonneg_eq y 4 (by omega) (by omega), tmod_nonneg_eq y 100 (by omega) (by omega),
    tmod_nonneg_eq y 400 (by omega) (by omega)]
  simp only [Bool.or_eq_true, Bool.and_eq_true, beq_iff_eq, bne_iff_ne]
  omega

theorem dayOfYear_bound (y m d : Int) (hm : 1 ≤ m) (hm' : m ≤ 12)
    (hd : 1 ≤ d) (hd' : d ≤ daysInMonth y m) :
    0 ≤ internal.addMonthDays y (m - 1).toNat + (d - 1) ∧
    internal.addMonthDays y (m - 1).toNat + (d - 1)
      < 365 + (if isLeapYear y then 1 else 0) := by
  have h1 : daysInMonth y 1 = 31 := by norm_num [daysInMonth]
  have h3 : daysInMonth y 3 = 31 := by norm_num [daysInMonth]
  have h4 : daysInMonth y 4 = 30 := by norm_num [daysInMonth]
  have h5 : daysInMonth y 5 = 31 := by norm_num [daysInMonth]
  have h6 : daysInMonth y 6 = 30 := by norm_num [daysInMonth]
  have h7 : daysInMonth y 7 = 31 := by norm_num [daysInMonth]
  have h8 : daysInMonth y 8 = 31 := by norm_num [daysInMonth]
  have h9 : daysInMonth y 9 = 30 := by norm_num [daysInMonth]
  have h10 : daysInMonth y 10 = 31 := by norm_num [daysInMonth]
  have h11 : daysInMonth y 11 = 30 := by norm_num [daysInMonth]
  have h12 : daysInMonth y 12 = 31 := by norm_num [daysInMonth]
  cases hb : isLeapYear y
  · have h2 : daysInMonth y 2 = 28 := by simp [daysInMonth, hb]
    interval_cases m <;>
      norm_num [internal.addMonthDays, h1, h2, h3, h4, h5, h6, h7, h8, h9, h10, h11, h12] at hd' ⊢ <;>
      omega
  · have h2 : daysInMonth y 2 = 29 := by simp [daysInMonth, hb]
    interval_cases m <;>
      norm_num [internal.addMonthDays, h1, h2, h3, h4, h5, h6, h7, h8, h9, h10, h11, h12] at hd' ⊢ <;>
      omega

/-- The forward conversion written as one linear expression in the
400/100/4/1-cycle coordinates of `year - 1`. -/
theorem dateToTicks_eq (y m d : Int) (hy : 1 ≤ y) :
    internal.dateToTicks y m d
      = (146097 * ((y - 1) / 400) + 36524 * ((y - 1) % 400 / 100)
          + 1461 * ((y - 1) % 400 % 100 / 4) + 365 * ((y - 1) % 400 % 100 % 4)
          + (internal.addMonthDays y (m - 1).toNat + (d - 1)))
        * constants.TICKS_PER_DAY := by
  simp only [internal.dateToTicks]
  have r1 : (y - 1).tdiv 400 = (y - 1) / 400 := by
    rw [tdiv_nonneg_eq _ _ (by omega) (by omega)]
  have r2 : (y - 1).tmod 400 = (y - 1) % 400 := by
    rw [tmod_nonneg_eq _ _ (by omega) (by omega)]
  rw [r1, r2]
  have r3 : ((y - 1) % 400).tdiv 100 = (y - 1) % 400 / 100 := by
    rw [tdiv_nonneg_eq _ _ (by omega) (by omega)]
  have r4 : ((y - 1) % 400).tmod 100 = (y - 1) % 400 % 100 := by
    rw [tmod_nonneg_eq _ _ (by omega) (by omega)]
  rw [r3, r4]
  have r5 : ((y - 1) % 400 % 100).tdiv 4 = (y - 1) % 400 % 100 / 4 := by
    rw [tdiv_nonneg_eq _ _ (by omega) (by omega)]
  have r6 : ((y - 1) % 400 % 100).tmod 4 = (y - 1) % 400 % 100 % 4 := by
    rw [tmod_nonneg_eq _ _ (by omega) (by omega)]
  rw [r5, r6]
  simp only [constants.DAYS_PER_400_YEARS, constants.DAYS_PER_100_YEARS,
    constants.DAYS_PER_4_YEARS, constants.DAYS_PER_YEAR]
  congr 1
  ring

/-- The civil-date round trip through ticks, for every valid proleptic
Gregorian date with year 1..9999. -/
theorem dateRoundTrip (y m d : Int) (hy : 1 ≤ y) (hy' : y ≤ 9999)
    (hm : 1 ≤ m) (hm' : m ≤ 12) (hd : 1 ≤ d) (hd' : d ≤ daysInMonth y m) :
    internal.dateComponentsFromTicks (internal.dateToTicks y m d) = (y, m, d) := by
  set t := internal.addMonthDays y (m - 1).toNat + (d - 1) with hts
  set a := (y - 1) / 400 with has
  set c := ((y - 1) % 400) / 100 with hcs
  set q := (((y - 1) % 400) % 100) / 4 with hqs
  set v := (((y - 1) % 400) % 100) % 4 with hvs
  have hya : y - 1 = 400 * a + 100 * c + 4 * q + v := by omega
  have hab : 0 ≤ a ∧ a ≤ 24 := by omega
  have hcb : 0 ≤ c ∧ c ≤ 3 := by omega
  have hqb : 0 ≤ q ∧ q ≤ 24 := by omega
  have hvb : 0 ≤ v ∧ v ≤ 3 := by omega
  have htb := dayOfYear_bound y m d hm hm' hd hd'
  rw [← hts] at htb
  -- the forward conversion in cycle coordinates
  have hfwd : internal.dateToTicks y m d
      = (146097 * a + 36524 * c + 1461 * q + 365 * v + t) * constants.TICKS_PER_DAY := by
    rw [dateToTicks_eq y m d hy]
  -- the leap-year flag in cycle coordinates
  have hsp : t < 365 ∨ (t = 365 ∧ v = 3 ∧ (q ≠ 24 ∨ c = 3)) := by
    by_cases ht365 : t < 365
    · exact Or.inl ht365
    · right
      cases hb : isLeapYear y
      · rw [hb] at htb
        simp only [Bool.false_eq_true, if_false] at htb
        omega
      · have hleap := (isLeapYear_iff y hy).mp hb
        rw [hb] at htb
        simp only [if_pos rfl] at htb
        refine ⟨by omega, by omega, ?_⟩
        by_cases hq24 : q = 24
        · right; omega
        · left; exact hq24
  have hext := cycle_extract a c q v t hab.1 hcb.1 hcb.2 hqb.1 hqb.2 hvb.1 hvb.2 htb.1 hsp
  rw [hfwd, hext]
  have hyear : 1 + a * 400 + c * 100 + q * 4 + v = y := by omega
  rw [hyear]
  have hscan := monthScan_correct y m d hm hm' hd hd'
  rw [← hts] at hscan
  rw [hscan]
  norm_num



/-- For valid civil date components, in-range time components and a
sub-second tick remainder, the composed tick value stays within
`[0, MAX_DATETIME_TICKS]`. -/
theorem civilTicks_bound (y m d h mi s extra : Int) (hy : 1 ≤ y) (hy' : y ≤ 9999)
    (hm : 1 ≤ m) (hm' : m ≤ 12) (hd : 1 ≤ d) (hd' : d ≤ daysInMonth y m)
    (hh : 0 ≤ h) (hh' : h ≤ 23) (hmi : 0 ≤ mi) (hmi' : mi ≤ 59)
    (hs : 0 ≤ s) (hs' : s ≤ 59) (hex : 0 ≤ extra) (hex' : extra < 10000000) :
    0 ≤ internal.dateToTicks y m d + internal.timeToTicks h mi s 0 + extra ∧
    internal.dateToTicks y m d + internal.timeToTicks h mi s 0 + extra
      ≤ constants.MAX_DATETIME_TICKS := by
  rw [dateToTicks_eq y m d hy]
  have htb := dayOfYear_bound y m d hm hm' hd hd'
  have hvb : 0 ≤ (y - 1) % 400 % 100 % 4 ∧ (y - 1) % 400 % 100 % 4 ≤ 3 := by omega
  simp only [internal.timeToTicks, constants.TICKS_PER_HOUR, constants.TICKS_PER_MINUTE,
    constants.TICKS_PER_SECOND, constants.TICKS_PER_MILLISECOND, constants.TICKS_PER_DAY,
    constants.MAX_DATETIME_TICKS]
  cases hb : isLeapYear y
  · rw [hb] at htb
    simp only [Bool.false_eq_true, if_false] at htb
    omega
  · have hleap := (isLeapYear_iff y (by omega)).mp hb
    rw [hb] at htb
    simp only [if_pos rfl] at htb
    omega

/-- `internal::isValidDate` holds exactly on the claim's stated ranges. -/
theorem isValidDate_iff (y m d : Int) :
    internal.isValidDate y m d = true
      ↔ (1 ≤ y ∧ y ≤ 9999 ∧ 1 ≤ m ∧ m ≤ 12 ∧ 1 ≤ d ∧ d ≤ daysInMonth y m) := by
  simp only [internal.isValidDate, constants.MIN_YEAR, constants.MAX_YEAR]
  split_ifs with h1 h2 h3
  · simp only [Bool.or_eq_true, decide_eq_true_eq] at h1
    simp only [Bool.false_eq_true, false_iff]
    omega
  · simp only [Bool.or_eq_true, decide_eq_true_eq] at h2
    simp only [Bool.false_eq_true, false_iff]
    omega
  · simp only [Bool.or_eq_true, decide_eq_true_eq] at h3
    simp only [Bool.false_eq_true, false_iff]
    omega
  · simp only [Bool.or_eq_true, decide_eq_true_eq, not_or] at h1 h2 h3
    simp only [true_iff]
    omega

/-- `internal::isValidDate` as a falsity criterion. -/
theorem isValidDate_false_iff (y m d : Int) :
    internal.isValidDate y m d = false
      ↔ ¬(1 ≤ y ∧ y ≤ 9999 ∧ 1 ≤ m ∧ m ≤ 12 ∧ 1 ≤ d ∧ d ≤ daysInMonth y m) := by
  rw [Bool.eq_false_iff, Ne, isValidDate_iff]

/-- `internal::isValidTime` holds exactly on the claim's stated ranges. -/
theorem isValidTime_iff (h mi s ms : Int) :
    internal.isValidTime h mi s ms = true
      ↔ (0 ≤ h ∧ h ≤ 23 ∧ 0 ≤ mi ∧ mi ≤ 59 ∧ 0 ≤ s ∧ s ≤ 59 ∧ 0 ≤ ms ∧ ms ≤ 999) := by
  simp only [internal.isValidTime, constants.HOURS_PER_DAY, constants.MINUTES_PER_HOUR,
    constants.SECONDS_PER_MINUTE, constants.MILLISECONDS_PER_SECOND,
    Bool.and_eq_true, decide_eq_true_eq]
  omega

/-- `internal::isValidTime` as a falsity criterion. -/
theorem isValidTime_false_iff (h mi s ms : Int) :
    internal.isValidTime h mi s ms = false
      ↔ ¬(0 ≤ h ∧ h ≤ 23 ∧ 0 ≤ mi ∧ mi ≤ 59 ∧ 0 ≤ s ∧ s ≤ 59 ∧ 0 ≤ ms ∧ ms ≤ 999) := by
  rw [Bool.eq_false_iff, Ne, isValidTime_iff]

/-- Truncation toward zero: magnitude bounds and sign preservation. -/
theorem truncToInt_spec (q : ℚ) :
    |((truncToInt q : Int) : ℚ)| ≤ |q| ∧ |q| < |((truncToInt q : Int) : ℚ)| + 1
      ∧ (0 ≤ q → 0 ≤ truncToInt q) ∧ (q ≤ 0 → truncToInt q ≤ 0) := by
  unfold truncToInt
  by_cases hq : 0 ≤ q
  · rw [if_pos hq]
    have h1 : ((⌊q⌋ : Int) : ℚ) ≤ q := Int.floor_le q
    have h2 : q < ((⌊q⌋ : Int) : ℚ) + 1 := Int.lt_floor_add_one q
    have h3 : (0 : Int) ≤ ⌊q⌋ := Int.floor_nonneg.mpr hq
    have h4 : (0 : ℚ) ≤ ((⌊q⌋ : Int) : ℚ) := by exact_mod_cast h3
    rw [abs_of_nonneg hq, abs_of_nonneg h4]
    refine ⟨h1, h2, fun _ => h3, fun hq0 => ?_⟩
    have : ((⌊q⌋ : Int) : ℚ) ≤ 0 := le_trans h1 hq0
    exact_mod_cast this
  · rw [if_neg hq]
    push_neg at hq
    have hq' : 0 ≤ -q := by linarith
    have h1 : ((⌊-q⌋ : Int) : ℚ) ≤ -q := Int.floor_le (-q)
    have h2 : -q < ((⌊-q⌋ : Int) : ℚ) + 1 := Int.lt_floor_add_one (-q)
    have h3 : (0 : Int) ≤ ⌊-q⌋ := Int.floor_nonneg.mpr hq'
    have habs : |((-⌊-q⌋ : Int) : ℚ)| = ((⌊-q⌋ : Int) : ℚ) := by
      push_cast
      rw [abs_neg, abs_of_nonneg (by exact_mod_cast h3)]
    rw [abs_of_neg hq, habs]
    exact ⟨h1, by linarith, fun h0 => absurd h0 (not_le.mpr hq), fun _ => by omega⟩

/-- `std::round` semantics: the result is within half a unit of the
argument. -/
theorem roundHalfAwayFromZero_spec (q : ℚ) :
    |q - ((roundHalfAwayFromZero q : Int) : ℚ)| ≤ 1/2 := by
  unfold roundHalfAwayFromZero
  by_cases hq : 0 ≤ q
  · rw [if_pos hq]
    have h1 : ((⌊q + 1/2⌋ : Int) : ℚ) ≤ q + 1/2 := Int.floor_le _
    have h2 : q + 1/2 < ((⌊q + 1/2⌋ : Int) : ℚ) + 1 := Int.lt_floor_add_one _
    rw [abs_le]
    constructor <;> linarith
  · rw [if_neg hq]
    push_neg at hq
    have h1 : ((⌊-q + 1/2⌋ : Int) : ℚ) ≤ -q + 1/2 := Int.floor_le _
    have h2 : -q + 1/2 < ((⌊-q + 1/2⌋ : Int) : ℚ) + 1 := Int.lt_floor_add_one _
    rw [abs_le]
    constructor <;> push_cast <;> linarith
theorem digitChar_props (k : Nat) (hk : k < 10) :
    (Nat.digitChar k).isDigit = true ∧ Nat.digitChar k ≠ 'Z' ∧ Nat.digitChar k ≠ '+'
      ∧ Nat.digitChar k ≠ '-' ∧ Nat.digitChar k ≠ ':' := by
  interval_cases k <;> decide

theorem stoi_two_digits (a b : Nat) (ha : a < 10) (hb : b < 10) :
    stoiOpt [Nat.digitChar a, Nat.digitChar b] = some ((10 * a + b : Nat) : Int) := by
  interval_cases a <;> interval_cases b <;> decide

theorem parseOffsetString_hhmm (sgn : Char) (hs : sgn = '+' ∨ sgn = '-')
    (a b c e : Nat) (ha : a < 10) (hb : b < 10) (hc : c < 6) (he : e < 10) :
    parseOffsetString [sgn, Nat.digitChar a, Nat.digitChar b, ':',
        Nat.digitChar c, Nat.digitChar e]
      = (if ((10 * a + b : Nat) : Int) * 60 + ((10 * c + e : Nat) : Int) ≤ 840 then
          some ((if sgn = '-' then -(((10 * a + b : Nat) : Int) * 60 + ((10 * c + e : Nat) : Int))
                 else ((10 * a + b : Nat) : Int) * 60 + ((10 * c + e : Nat) : Int)) * 600000000)
         else none) := by
  obtain ⟨da1, da2, da3, da4, da5⟩ := digitChar_props a ha
  obtain ⟨db1, db2, db3, db4, db5⟩ := digitChar_props b hb
  obtain ⟨dc1, dc2, dc3, dc4, dc5⟩ := digitChar_props c (by omega)
  obtain ⟨de1, de2, de3, de4, de5⟩ := digitChar_props e he
  rw [parseOffsetString]
  rw [if_pos (by simp)]
  simp only [charAt, List.get?, Option.getD, List.drop]
  rw [show findIdxCh ':' [Nat.digitChar a, Nat.digitChar b, ':',
        Nat.digitChar c, Nat.digitChar e] = some 2 by
    simp [findIdxCh, da5, db5]]
  simp only [List.length_cons, List.length_nil, List.take, List.drop]
  norm_num
  rw [stoi_two_digits a b ha hb, stoi_two_digits c e (by omega) he]
  have hTPM : constants.TICKS_PER_MINUTE = 600000000 := by decide
  rw [hTPM]
  push_cast
  split_ifs <;> (try simp_all only [Bool.and_eq_true, decide_eq_true_eq])
  all_goals try ring
  all_goals omega

theorem scanBack_c6 (sgn : Char) (hs : sgn = '+' ∨ sgn = '-')
    (a b c e : Nat) (ha : a < 10) (hb : b < 10) (hc : c < 6) (he : e < 10) :
    scanBack ['2','0','2','4','-','0','1','-','1','5','T','1','2',':','0','0',':','0','0',
        sgn, Nat.digitChar a, Nat.digitChar b, ':', Nat.digitChar c, Nat.digitChar e] 25
      = some 19 := by
  obtain ⟨da1, da2, da3, da4, da5⟩ := digitChar_props a ha
  obtain ⟨db1, db2, db3, db4, db5⟩ := digitChar_props b hb
  obtain ⟨dc1, dc2, dc3, dc4, dc5⟩ := digitChar_props c (by omega)
  obtain ⟨de1, de2, de3, de4, de5⟩ := digitChar_props e he
  rcases hs with h | h <;> subst h <;>
    simp [scanBack, charAt, List.get?, da2, da3, da4, db2, db3, db4,
      dc2, dc3, dc4, de2, de3, de4]

theorem dateTimeTryParse_prefix_c6 :
    dateTimeTryParse ['2','0','2','4','-','0','1','-','1','5','T','1','2',':','0','0',':','0','0']
      = some 638409168000000000 := by decide

theorem isDigitAt_charAt (l : List Char) (i : Nat) :
    isDigitAt l i = (charAt l i).isDigit := by
  unfold isDigitAt charAt
  cases l.get? i <;> simp [Option.getD]

theorem scanBack_bounds (cs : List Char) :
    ∀ i p, scanBack cs i = some p → 10 ≤ p ∧ p + 1 ≤ i := by
  intro i
  induction i with
  | zero => intro p h; simp [scanBack] at h
  | succ n ih =>
    intro p h
    rw [scanBack] at h
    by_cases h10 : n + 1 ≤ 10
    · simp [h10] at h
    · simp only [h10, if_false] at h
      split at h
      · simp at h; omega
      · have := ih p h
        omega

theorem specCore_last_digit (l : List Char) (v : Int × Int × Int × Int × Int × Int × Int)
    (h : specCore l = some v) :
    isDigitAt l (l.length - 1) = true := by
  unfold specCore at h
  split at h
  · rename_i hcond
    simp only [Bool.and_eq_true, decide_eq_true_eq] at hcond
    have hlen : l.length = 10 := by tauto
    have hds : specDateShape l = true := by tauto
    unfold specDateShape digitsAt at hds
    simp only [List.all_cons, List.all_nil, Bool.and_eq_true, and_true] at hds
    rw [hlen]
    tauto
  · split at h
    · rename_i hcond
      simp only [Bool.and_eq_true, decide_eq_true_eq] at hcond
      have hlen : l.length = 19 := by tauto
      have hts : specTimeShape l = true := by tauto
      unfold specTimeShape digitsAt at hts
      simp only [List.all_cons, List.all_nil, Bool.and_eq_true, and_true] at hts
      rw [hlen]
      tauto
    · split at h
      · rename_i hcond
        simp only [Bool.and_eq_true, decide_eq_true_eq] at hcond
        have hlen : 21 ≤ l.length := by tauto
        have hall : (l.drop 20).all Char.isDigit = true := by tauto
        have hlt : l.length - 21 < (l.drop 20).length := by
          rw [List.length_drop]; omega
        have hlast : l.get? (l.length - 1) = (l.drop 20).get? (l.length - 21) := by
          rw [List.get?_drop]
          congr 1
          omega
        have hcdig : ((l.drop 20).get ⟨l.length - 21, hlt⟩).isDigit = true :=
          List.all_eq_true.mp hall _ (List.get_mem _ _ _)
        unfold isDigitAt
        rw [hlast, List.get?_eq_get hlt]
        exact hcdig
      · exact absurd h (by simp)

theorem stripSpecSuffix_last_sign (l : List Char)
    (hsign : charAt l (l.length - 1) = '+' ∨ charAt l (l.length - 1) = '-') :
    stripSpecSuffix l = l := by
  have hdig : isDigitAt l (l.length - 1) = false := by
    rw [isDigitAt_charAt]
    rcases hsign with h | h <;> rw [h] <;> decide
  have hz : ¬ charAt l (l.length - 1) = 'Z' := by
    rcases hsign with h | h <;> rw [h] <;> decide
  unfold stripSpecSuffix
  rw [if_neg (by simp [hz]), if_neg (by simp [hdig]), if_neg (by simp [hdig]),
    if_neg (by simp [hdig])]

theorem dateTimeTryParse_none_of_last_sign (l : List Char) (hne : l ≠ [])
    (hsign : charAt l (l.length - 1) = '+' ∨ charAt l (l.length - 1) = '-') :
    dateTimeTryParse l = none := by
  unfold dateTimeTryParse
  rw [stripSpecSuffix_last_sign l hsign]
  cases hsc : specCore l with
  | none => rfl
  | some v =>
    exfalso
    have hd := specCore_last_digit l v hsc
    rw [isDigitAt_charAt] at hd
    rcases hsign with h | h <;> rw [h] at hd <;> simp at hd

theorem tryParse_rejects_double_sign (cs : List Char) (p : Nat)
    (hp : scanBack cs cs.length = some p)
    (hsign : charAt cs p = '+' ∨ charAt cs p = '-')
    (hprev : charAt cs (p - 1) = '+' ∨ charAt cs (p - 1) = '-') :
    DateTimeOffset.tryParse cs = none := by
  obtain ⟨hp10, hplen⟩ := scanBack_bounds cs cs.length p hp
  rw [DateTimeOffset.tryParse, hp]
  dsimp only
  rw [if_neg (by rcases hsign with h | h <;> rw [h] <;> decide)]
  have htake : (cs.take p).length = p := by
    rw [List.length_take]
    omega
  have hlast : charAt (cs.take p) ((cs.take p).length - 1) = charAt cs (p - 1) := by
    rw [htake]
    unfold charAt
    rw [List.get?_take (by omega)]
  have hnone : dateTimeTryParse (cs.take p) = none := by
    apply dateTimeTryParse_none_of_last_sign
    · intro hcon
      have : (cs.take p).length = 0 := by rw [hcon]; rfl
      omega
    · rw [hlast]
      exact hprev
  cases hpo : parseOffsetString (cs.drop p) with
  | none => rfl
  | some off =>
    rw [hnone]

/-- Every offset tick count produced by the designator parser stays within
±14 hours (±504000000000 ticks). -/
theorem parseOffsetString_bound (l : List Char) (t : Int)
    (h : parseOffsetString l = some t) :
    -504000000000 ≤ t ∧ t ≤ 504000000000 := by
  unfold parseOffsetString at h
  split at h
  · dsimp only at h
    split at h
    · simp at h
    · rename_i hours minutes
      split at h
      · split at h
        · rename_i hval h840
          simp only [Bool.and_eq_true, decide_eq_true_eq] at hval
          simp only [Option.some.injEq] at h
          have hTPM : constants.TICKS_PER_MINUTE = 600000000 := by decide
          rw [hTPM] at h
          split at h <;> omega
        · simp at h
      · simp at h
  · simp at h

/-- C1: for every valid civil date (year, month, day) with `1 ≤ year ≤ 9999`,
`1 ≤ month ≤ 12` and `1 ≤ day ≤ daysInMonth year month`, converting to ticks
with the Gregorian 400/100/4/1-year cycle decomposition (`dateToTicks`) and
back (`dateComponentsFromTicks`) returns exactly the original components —
in particular at every 400-year and 4-year boundary date, where the proof
runs through the cap-at-3 corrections of the cycle quotients. -/
theorem claim_C1 (y m d : Int) (hy : 1 ≤ y) (hy' : y ≤ 9999)
    (hm : 1 ≤ m) (hm' : m ≤ 12) (hd : 1 ≤ d) (hd' : d ≤ daysInMonth y m) :
    internal.dateComponentsFromTicks (internal.dateToTicks y m d) = (y, m, d) :=
  dateRoundTrip y m d hy hy' hm hm' hd hd'

/-- C1 witness: the round trip evaluated at 2000-02-29, a date that exercises
both the 400-year-boundary leap rule and the 4-year cycle cap. -/
theorem claim_C1_witness :
    (1 : Int) ≤ 2000 ∧ (29 : Int) ≤ daysInMonth 2000 2 ∧
    internal.dateComponentsFromTicks (internal.dateToTicks 2000 2 29) = (2000, 2, 29) :=
  ⟨by decide, by decide,
    claim_C1 2000 2 29 (by decide) (by decide) (by decide) (by decide) (by decide) (by decide)⟩

/-- C5: the civil-component constructors raise no error; components outside
the documented ranges (year 1..9999, month 1..12, day 1..daysInMonth, hour
0..23, minute 0..59, second 0..59, millisecond 0..999) produce the minimum
instant (tick 0 = `MIN_DATETIME_TICKS`), and in-range components produce
`dateToTicks + timeToTicks`. -/
theorem claim_C5 (y m d h mi s ms : Int) :
    (¬(1 ≤ y ∧ y ≤ 9999 ∧ 1 ≤ m ∧ m ≤ 12 ∧ 1 ≤ d ∧ d ≤ daysInMonth y m) →
        DateTime.ofYMD y m d = ⟨0⟩)
    ∧ ((1 ≤ y ∧ y ≤ 9999 ∧ 1 ≤ m ∧ m ≤ 12 ∧ 1 ≤ d ∧ d ≤ daysInMonth y m) →
        DateTime.ofYMD y m d = ⟨internal.dateToTicks y m d⟩)
    ∧ (¬(1 ≤ y ∧ y ≤ 9999 ∧ 1 ≤ m ∧ m ≤ 12 ∧ 1 ≤ d ∧ d ≤ daysInMonth y m
          ∧ 0 ≤ h ∧ h ≤ 23 ∧ 0 ≤ mi ∧ mi ≤ 59 ∧ 0 ≤ s ∧ s ≤ 59) →
        DateTime.ofYMDHMS y m d h mi s = ⟨0⟩)
    ∧ ((1 ≤ y ∧ y ≤ 9999 ∧ 1 ≤ m ∧ m ≤ 12 ∧ 1 ≤ d ∧ d ≤ daysInMonth y m
          ∧ 0 ≤ h ∧ h ≤ 23 ∧ 0 ≤ mi ∧ mi ≤ 59 ∧ 0 ≤ s ∧ s ≤ 59) →
        DateTime.ofYMDHMS y m d h mi s
          = ⟨internal.dateToTicks y m d + internal.timeToTicks h mi s 0⟩)
    ∧ (¬(1 ≤ y ∧ y ≤ 9999 ∧ 1 ≤ m ∧ m ≤ 12 ∧ 1 ≤ d ∧ d ≤ daysInMonth y m
          ∧ 0 ≤ h ∧ h ≤ 23 ∧ 0 ≤ mi ∧ mi ≤ 59 ∧ 0 ≤ s ∧ s ≤ 59 ∧ 0 ≤ ms ∧ ms ≤ 999) →
        DateTime.ofYMDHMSms y m d h mi s ms = ⟨0⟩)
    ∧ ((1 ≤ y ∧ y ≤ 9999 ∧ 1 ≤ m ∧ m ≤ 12 ∧ 1 ≤ d ∧ d ≤ daysInMonth y m
          ∧ 0 ≤ h ∧ h ≤ 23 ∧ 0 ≤ mi ∧ mi ≤ 59 ∧ 0 ≤ s ∧ s ≤ 59 ∧ 0 ≤ ms ∧ ms ≤ 999) →
        DateTime.ofYMDHMSms y m d h mi s ms
          = ⟨internal.dateToTicks y m d + internal.timeToTicks h mi s ms⟩) := by
  refine ⟨?_, ?_, ?_, ?_, ?_, ?_⟩
  · intro hc
    have hv : internal.isValidDate y m d = false := (isValidDate_false_iff y m d).mpr hc
    simp [DateTime.ofYMD, hv, constants.MIN_DATETIME_TICKS]
  · intro hc
    have hv : internal.isValidDate y m d = true := (isValidDate_iff y m d).mpr hc
    simp [DateTime.ofYMD, hv]
  · intro hc
    by_cases hvd : internal.isValidDate y m d = true
    · have hvt : internal.isValidTime h mi s 0 = false := by
        rw [isValidTime_false_iff]
        rw [isValidDate_iff] at hvd
        intro hti
        exact hc ⟨hvd.1, hvd.2.1, hvd.2.2.1, hvd.2.2.2.1, hvd.2.2.2.2.1, hvd.2.2.2.2.2,
          hti.1, hti.2.1, hti.2.2.1, hti.2.2.2.1, hti.2.2.2.2.1, hti.2.2.2.2.2.1⟩
      simp [DateTime.ofYMDHMS, hvt, constants.MIN_DATETIME_TICKS]
    · have hvdf : internal.isValidDate y m d = false := Bool.eq_false_iff.mpr hvd
      simp [DateTime.ofYMDHMS, hvdf, constants.MIN_DATETIME_TICKS]
  · intro hc
    have hvd : internal.isValidDate y m d = true := by
      rw [isValidDate_iff]; tauto
    have hvt : internal.isValidTime h mi s 0 = true := by
      rw [isValidTime_iff]
      refine ⟨by tauto, by tauto, by tauto, by tauto, by tauto, by tauto, by omega, by omega⟩
    simp [DateTime.ofYMDHMS, hvd, hvt]
  · intro hc
    by_cases hvd : internal.isValidDate y m d = true
    · have hvt : internal.isValidTime h mi s ms = false := by
        rw [isValidTime_false_iff]
        rw [isValidDate_iff] at hvd
        intro hti
        exact hc ⟨hvd.1, hvd.2.1, hvd.2.2.1, hvd.2.2.2.1, hvd.2.2.2.2.1, hvd.2.2.2.2.2,
          hti.1, hti.2.1, hti.2.2.1, hti.2.2.2.1, hti.2.2.2.2.1, hti.2.2.2.2.2.1,
          hti.2.2.2.2.2.2.1, hti.2.2.2.2.2.2.2⟩
      simp [DateTime.ofYMDHMSms, hvt, constants.MIN_DATETIME_TICKS]
    · have hvdf : internal.isValidDate y m d = false := Bool.eq_false_iff.mpr hvd
      simp [DateTime.ofYMDHMSms, hvdf, constants.MIN_DATETIME_TICKS]
  · intro hc
    have hvd : internal.isValidDate y m d = true := by
      rw [isValidDate_iff]; tauto
    have hvt : internal.isValidTime h mi s ms = true := by
      rw [isValidTime_iff]; tauto
    simp [DateTime.ofYMDHMSms, hvd, hvt]

/-- C5 witness: the out-of-range construction `DateTime(2024, 13, 45)` clamps
to tick 0 and the in-range construction 2024-01-15 yields `dateToTicks`. -/
theorem claim_C5_witness :
    DateTime.ofYMD 2024 13 45 = ⟨0⟩
    ∧ DateTime.ofYMD 2024 1 15 = ⟨internal.dateToTicks 2024 1 15⟩ :=
  ⟨(claim_C5 2024 13 45 0 0 0 0).1 (by decide),
   (claim_C5 2024 1 15 0 0 0 0).2.1 (by decide)⟩

/-- C9: converting an `OffsetInstant` to a new offset with `toOffset` keeps
the derived UTC tick value (`local ticks − offset ticks`) exactly fixed, for
every local instant in range and offsets within ±14 hours. -/
theorem claim_C9 (lt o1 o2 : Int)
    (hl : 0 ≤ lt) (hl' : lt ≤ constants.MAX_DATETIME_TICKS)
    (ho1 : -504000000000 ≤ o1) (ho1' : o1 ≤ 504000000000)
    (ho2 : -504000000000 ≤ o2) (ho2' : o2 ≤ 504000000000) :
    ((DateTimeOffset.mk ⟨lt⟩ ⟨o1⟩).toOffset ⟨o2⟩).utcTicks
      = (DateTimeOffset.mk ⟨lt⟩ ⟨o1⟩).utcTicks := by
  simp only [DateTimeOffset.toOffset, DateTimeOffset.utcTicks, DateTimeOffset.utcDateTime,
    DateTime.ofTicks, DateTime.addSpan, DateTime.ticks, TimeSpan.ticks]
  ring

/-- C9 witness: a concrete timezone conversion (+05:00 → −08:00) preserving
the UTC instant. -/
theorem claim_C9_witness :
    ((DateTimeOffset.mk ⟨638412916000000000⟩ ⟨180000000000⟩).toOffset
        ⟨-288000000000⟩).utcTicks
      = (DateTimeOffset.mk ⟨638412916000000000⟩ ⟨180000000000⟩).utcTicks :=
  claim_C9 638412916000000000 180000000000 (-288000000000)
    (by decide) (by decide) (by decide) (by decide) (by decide) (by decide)

/-- C8 counterexample: `fromMicroseconds` does not truncate toward zero —
at the exactly-representable argument 0.75 the product 7.5 is rounded to 8
(`std::round`, half away from zero) where truncation would give 7.  All
values involved are dyadic rationals, so binary64 evaluation is exact and
the rational model coincides with the C++ computation. -/
theorem claim_C8_counterexample :
    (TimeSpan.fromMicroseconds (3/4 : ℚ)).ticks = 8
    ∧ truncToInt ((3/4 : ℚ) * (constants.TICKS_PER_MICROSECOND : ℚ)) = 7
    ∧ (TimeSpan.fromMicroseconds (3/4 : ℚ)).ticks
        ≠ truncToInt ((3/4 : ℚ) * (constants.TICKS_PER_MICROSECOND : ℚ)) := by
  have h1 : ((3/4 : ℚ) * (constants.TICKS_PER_MICROSECOND : ℚ)) = 15/2 := by
    norm_num [constants.TICKS_PER_MICROSECOND]
  have ha : (TimeSpan.fromMicroseconds (3/4 : ℚ)).ticks = 8 := by
    show roundHalfAwayFromZero ((3/4 : ℚ) * (constants.TICKS_PER_MICROSECOND : ℚ)) = 8
    rw [h1]
    unfold roundHalfAwayFromZero
    rw [if_pos (by norm_num)]
    norm_num [Int.floor_eq_iff]
  have hb : truncToInt ((3/4 : ℚ) * (constants.TICKS_PER_MICROSECOND : ℚ)) = 7 := by
    rw [h1]
    unfold truncToInt
    rw [if_pos (by norm_num)]
    norm_num [Int.floor_eq_iff]
  exact ⟨ha, hb, by rw [ha, hb]; decide⟩

/-- C8 (amended): the factories `fromDays`, `fromHours`, `fromMinutes`,
`fromSeconds` and `fromMilliseconds` multiply by the unit tick constant and
truncate toward zero, but `fromMicroseconds` multiplies by 10 and rounds to
the nearest tick, half away from zero (`std::round`), staying within half a
tick of the exact product. -/
theorem claim_C8 (x : ℚ) :
    ((TimeSpan.fromDays x).ticks = truncToInt (x * 864000000000))
    ∧ ((TimeSpan.fromHours x).ticks = truncToInt (x * 36000000000))
    ∧ ((TimeSpan.fromMinutes x).ticks = truncToInt (x * 600000000))
    ∧ ((TimeSpan.fromSeconds x).ticks = truncToInt (x * 10000000))
    ∧ ((TimeSpan.fromMilliseconds x).ticks = truncToInt (x * 10000))
    ∧ (|((TimeSpan.fromSeconds x).ticks : ℚ)| ≤ |x * 10000000|
        ∧ |x * 10000000| < |((TimeSpan.fromSeconds x).ticks : ℚ)| + 1)
    ∧ ((TimeSpan.fromMicroseconds x).ticks = roundHalfAwayFromZero (x * 10))
    ∧ (|x * 10 - ((TimeSpan.fromMicroseconds x).ticks : ℚ)| ≤ 1/2) := by
  have e1 : (constants.TICKS_PER_DAY : ℚ) = 864000000000 := by decide
  have e2 : (constants.TICKS_PER_HOUR : ℚ) = 36000000000 := by decide
  have e3 : (constants.TICKS_PER_MINUTE : ℚ) = 600000000 := by decide
  have e4 : (constants.TICKS_PER_SECOND : ℚ) = 10000000 := by decide
  have e5 : (constants.TICKS_PER_MILLISECOND : ℚ) = 10000 := by decide
  have e6 : (constants.TICKS_PER_MICROSECOND : ℚ) = 10 := by decide
  refine ⟨?_, ?_, ?_, ?_, ?_, ?_, ?_, ?_⟩
  · simp [TimeSpan.fromDays, TimeSpan.ticks, e1]
  · simp [TimeSpan.fromHours, TimeSpan.ticks, e2]
  · simp [TimeSpan.fromMinutes, TimeSpan.ticks, e3]
  · simp [TimeSpan.fromSeconds, TimeSpan.ticks, e4]
  · simp [TimeSpan.fromMilliseconds, TimeSpan.ticks, e5]
  · have := truncToInt_spec (x * 10000000)
    simp only [TimeSpan.fromSeconds, TimeSpan.ticks, e4]
    exact ⟨this.1, this.2.1⟩
  · simp [TimeSpan.fromMicroseconds, TimeSpan.ticks, e6]
  · have := roundHalfAwayFromZero_spec (x * 10)
    simp only [TimeSpan.fromMicroseconds, TimeSpan.ticks, e6]
    exact this

/-- C6: `DateTimeOffset::tryParse` accepts a `±HH:MM` offset designator
exactly when its magnitude is at most 840 minutes, and an accepted
designator yields exactly `(HH*60+MM)` signed minutes in ticks; moreover no
accepted input ever stores an offset beyond ±14 hours, the concrete input
`2024-01-15T12:00:00+15:00` fails, and `2024-01-15T12:00:00+14:00` succeeds
with an offset of exactly 14 hours (504000000000 ticks).  The datetime part
is handled by `DateTime::tryParse`, whose definition is absent from the
sources and is modelled from the spec (`dateTimeTryParse`). -/
theorem claim_C6 (sgn : Char) (hs : sgn = '+' ∨ sgn = '-') (a b c e : Nat)
    (ha : a < 10) (hb : b < 10) (hc : c < 6) (he : e < 10) :
    (DateTimeOffset.tryParse
        ['2','0','2','4','-','0','1','-','1','5','T','1','2',':','0','0',':','0','0',
          sgn, Nat.digitChar a, Nat.digitChar b, ':', Nat.digitChar c, Nat.digitChar e]
      = (if ((10 * a + b : Nat) : Int) * 60 + ((10 * c + e : Nat) : Int) ≤ 840 then
          some ⟨⟨638409168000000000⟩,
            ⟨(if sgn = '-' then -(((10 * a + b : Nat) : Int) * 60 + ((10 * c + e : Nat) : Int))
               else ((10 * a + b : Nat) : Int) * 60 + ((10 * c + e : Nat) : Int)) * 600000000⟩⟩
         else none))
    ∧ (∀ l : List Char, ∀ t : Int, parseOffsetString l = some t →
        -504000000000 ≤ t ∧ t ≤ 504000000000)
    ∧ DateTimeOffset.tryParse (("2024-01-15T12:00:00+15:00").toList) = none
    ∧ DateTimeOffset.tryParse (("2024-01-15T12:00:00+14:00").toList)
        = some ⟨⟨638409168000000000⟩, ⟨504000000000⟩⟩ := by
  refine ⟨?_, parseOffsetString_bound, by decide, by decide⟩
  rw [DateTimeOffset.tryParse]
  rw [show (['2','0','2','4','-','0','1','-','1','5','T','1','2',':','0','0',':','0','0',
      sgn, Nat.digitChar a, Nat.digitChar b, ':', Nat.digitChar c, Nat.digitChar e] : List Char).length
      = 25 by simp]
  rw [scanBack_c6 sgn hs a b c e ha hb hc he]
  dsimp only
  rw [if_neg (by rcases hs with h | h <;> rw [h] <;> simp [charAt, List.get?])]
  rw [show (['2','0','2','4','-','0','1','-','1','5','T','1','2',':','0','0',':','0','0',
      sgn, Nat.digitChar a, Nat.digitChar b, ':', Nat.digitChar c, Nat.digitChar e] : List Char).drop 19
      = [sgn, Nat.digitChar a, Nat.digitChar b, ':', Nat.digitChar c, Nat.digitChar e] by simp]
  rw [parseOffsetString_hhmm sgn hs a b c e ha hb hc he]
  by_cases hle : ((10 * a + b : Nat) : Int) * 60 + ((10 * c + e : Nat) : Int) ≤ 840
  · rw [if_pos hle, if_pos hle]
    rw [show (['2','0','2','4','-','0','1','-','1','5','T','1','2',':','0','0',':','0','0',
        sgn, Nat.digitChar a, Nat.digitChar b, ':', Nat.digitChar c, Nat.digitChar e] : List Char).take 19
        = ['2','0','2','4','-','0','1','-','1','5','T','1','2',':','0','0',':','0','0'] by simp]
    rw [dateTimeTryParse_prefix_c6]
  · rw [if_neg hle, if_neg hle]

/-- C6 witness: the designator `+14:00` written through the digit-character
encoding is accepted with an offset of exactly 14 hours. -/
theorem claim_C6_witness :
    DateTimeOffset.tryParse
        ['2','0','2','4','-','0','1','-','1','5','T','1','2',':','0','0',':','0','0',
          '+', Nat.digitChar 1, Nat.digitChar 4, ':', Nat.digitChar 0, Nat.digitChar 0]
      = some ⟨⟨638409168000000000⟩, ⟨504000000000⟩⟩ := by
  have h := (claim_C6 '+' (Or.inl rfl) 1 4 0 0 (by decide) (by decide) (by decide)
    (by decide)).1
  rw [h]
  decide

/-- C7: whenever the offset-designator scan of `DateTimeOffset::tryParse`
finds a `+` or `-` that is immediately preceded by another sign character
(as in `2024-01-15T12:00:00+-01:00`), the parse fails: the datetime part
left after stripping the designator ends in a sign character, which the
grammar of `DateTime::tryParse` (modelled from the spec, see
`dateTimeTryParse`) rejects. -/
theorem claim_C7 (cs : List Char) (p : Nat)
    (hp : scanBack cs cs.length = some p)
    (hsign : charAt cs p = '+' ∨ charAt cs p = '-')
    (hprev : charAt cs (p - 1) = '+' ∨ charAt cs (p - 1) = '-') :
    DateTimeOffset.tryParse cs = none :=
  tryParse_rejects_double_sign cs p hp hsign hprev

/-- C7 witness: the malformed input `2024-01-15T12:00:00+-01:00` is
rejected (its designator scan stops at index 20, whose predecessor is the
sign `+`). -/
theorem claim_C7_witness :
    DateTimeOffset.tryParse (("2024-01-15T12:00:00+-01:00").toList) = none :=
  claim_C7 (("2024-01-15T12:00:00+-01:00").toList) 20 (by decide) (by decide) (by decide)

/-- C10: `DateTime::fromString` accepts inputs outside the documented
grammar `YYYY-MM-DD[THH:MM:SS[.fffffff]][Z|±HH:MM]`: after a valid date
(and optionally a valid time), trailing characters that do not begin a `T`
time part are silently ignored — `2024-01-15X` parses to 2024-01-15T00:00:00
and `2024-01-15T12:00:00abc` parses to 2024-01-15T12:00:00, while the
spec-modelled grammar (`specCore` after suffix stripping) rejects both. -/
theorem claim_C10 :
    (specCore (stripSpecSuffix (("2024-01-15X").toList)) = none
      ∧ fromString (("2024-01-15X").toList) = some (internal.dateToTicks 2024 1 15))
    ∧ (specCore (stripSpecSuffix (("2024-01-15T12:00:00abc").toList)) = none
      ∧ fromString (("2024-01-15T12:00:00abc").toList)
          = some (internal.dateToTicks 2024 1 15 + internal.timeToTicks 12 0 0 0)) := by
  exact ⟨⟨rfl, by decide⟩, ⟨rfl, by decide⟩⟩

theorem isDigit_toNat (c : Char) (h : c.isDigit = true) : 48 ≤ c.toNat ∧ c.toNat ≤ 57 := by
  simp only [Char.isDigit, Bool.and_eq_true, decide_eq_true_eq, ge_iff_le,
    UInt32.le_def, BitVec.le_def] at h
  exact h

theorem countDigits_take_all (cs : List Char) (k : Nat) (hk : k ≤ countDigits cs) :
    ∀ c ∈ cs.take k, c.isDigit := by
  induction cs generalizing k with
  | nil => simp
  | cons a rest ih =>
    cases k with
    | zero => simp
    | succ k =>
      simp only [countDigits] at hk
      by_cases ha : a.isDigit
      · rw [if_pos ha] at hk
        intro c hc
        simp only [List.take_succ_cons, List.mem_cons] at hc
        rcases hc with rfl | hc
        · exact ha
        · exact ih k (by omega) c hc
      · rw [if_neg ha] at hk
        omega

theorem digitsVal_bounds (cs : List Char) (h : ∀ c ∈ cs, c.isDigit) :
    0 ≤ digitsVal cs ∧ digitsVal cs < (10 : Int) ^ cs.length := by
  induction cs with
  | nil => simp [digitsVal]
  | cons a rest ih =>
    have ha := isDigit_toNat a (h a (List.mem_cons_self a rest))
    simp only [Char.toNat] at ha
    have hrest := ih (fun c hc => h c (List.mem_cons_of_mem a hc))
    have hd : 0 ≤ digitVal a ∧ digitVal a ≤ 9 := by
      simp only [digitVal, Char.toNat]
      omega
    simp only [digitsVal, List.length_cons]
    have hpow : (0 : Int) < 10 ^ rest.length := by positivity
    have hmul : (10 : Int) ^ (rest.length + 1) = 10 ^ rest.length * 10 := by ring
    constructor
    · nlinarith [hd.1, hrest.1, hpow]
    · nlinarith [hd.2, hrest.2, hpow]

theorem fracVal_bound (l : List Char) :
    0 ≤ digitsVal (l.take (min (countDigits l) 7)) * (10 : Int) ^ (7 - min (countDigits l) 7)
      ∧ digitsVal (l.take (min (countDigits l) 7)) * (10 : Int) ^ (7 - min (countDigits l) 7)
          < 10000000 := by
  have hall := countDigits_take_all l (min (countDigits l) 7) (min_le_left _ _)
  have hb := digitsVal_bounds _ hall
  have hlen : (l.take (min (countDigits l) 7)).length ≤ min (countDigits l) 7 := by
    simp [List.length_take]
  have hfd7 : min (countDigits l) 7 ≤ 7 := min_le_right _ _
  have hpow : (10 : Int) ^ (l.take (min (countDigits l) 7)).length
      ≤ 10 ^ min (countDigits l) 7 := pow_le_pow_right₀ (by norm_num) hlen
  have h2 : digitsVal (l.take (min (countDigits l) 7)) < 10 ^ min (countDigits l) 7 :=
    lt_of_lt_of_le hb.2 hpow
  have hpow2 : (0 : Int) < 10 ^ (7 - min (countDigits l) 7) := by positivity
  refine ⟨mul_nonneg hb.1 (le_of_lt hpow2), ?_⟩
  have hsplit : (10 : Int) ^ min (countDigits l) 7 * 10 ^ (7 - min (countDigits l) 7)
      = 10000000 := by
    rw [← pow_add]
    have : min (countDigits l) 7 + (7 - min (countDigits l) 7) = 7 := by omega
    rw [this]
    norm_num
  calc digitsVal (l.take (min (countDigits l) 7)) * (10 : Int) ^ (7 - min (countDigits l) 7)
      < 10 ^ min (countDigits l) 7 * 10 ^ (7 - min (countDigits l) 7) :=
        mul_lt_mul_of_pos_right h2 hpow2
    _ = 10000000 := hsplit

theorem parseTimeTail_frac (cs : List Char) (p : Nat) (h mi s f : Int)
    (hE : parseTimeTail cs p = some (h, mi, s, f)) : 0 ≤ f ∧ f < 10000000 := by
  simp only [parseTimeTail] at hE
  repeat' split at hE
  any_goals exact Option.noConfusion hE
  all_goals simp only [Option.some.injEq, Prod.mk.injEq] at hE
  all_goals obtain ⟨-, -, -, hf⟩ := hE
  all_goals subst hf
  all_goals first
    | exact ⟨le_refl 0, by norm_num⟩
    | exact fracVal_bound _

theorem fromStringTime_range (cs : List Char) (p : Nat) (y m d t : Int)
    (hE : fromStringTime cs p y m d = some t) :
    0 ≤ t ∧ t ≤ constants.MAX_DATETIME_TICKS := by
  simp only [fromStringTime] at hE
  split at hE
  · exact Option.noConfusion hE
  · rename_i h mi s f heq
    split at hE
    · rename_i hvalid
      simp only [Option.some.injEq] at hE
      subst hE
      simp only [Bool.and_eq_true] at hvalid
      have hdv := (isValidDate_iff y m d).mp hvalid.1
      have htv := (isValidTime_iff h mi s 0).mp hvalid.2
      have hf := parseTimeTail_frac cs p h mi s f heq
      exact civilTicks_bound y m d h mi s f hdv.1 hdv.2.1 hdv.2.2.1 hdv.2.2.2.1
        hdv.2.2.2.2.1 hdv.2.2.2.2.2 htv.1 htv.2.1 htv.2.2.1 htv.2.2.2.1
        htv.2.2.2.2.1 htv.2.2.2.2.2.1 hf.1 hf.2
    · exact Option.noConfusion hE

theorem fromString_range (cs0 : List Char) (t : Int)
    (hE : fromString cs0 = some t) : 0 ≤ t ∧ t ≤ constants.MAX_DATETIME_TICKS := by
  simp only [fromString] at hE
  repeat' split at hE
  any_goals exact Option.noConfusion hE
  all_goals exact fromStringTime_range _ _ _ _ _ _ hE

theorem natToCharsAux_step (fuel n : Nat) :
    natToCharsAux (fuel + 1) n
      = if n < 10 then [Nat.digitChar n]
        else natToCharsAux fuel (n / 10) ++ [Nat.digitChar (n % 10)] := rfl

theorem natToCharsAux_fuel_inv (fuel fuel' n : Nat) (h : n < 10 ^ fuel)
    (h' : n < 10 ^ fuel') (h1 : 1 ≤ fuel) (h1' : 1 ≤ fuel') :
    natToCharsAux fuel n = natToCharsAux fuel' n := by
  induction fuel generalizing fuel' n with
  | zero => omega
  | succ f ih =>
    obtain ⟨f', rfl⟩ : ∃ k, fuel' = k + 1 := ⟨fuel' - 1, by omega⟩
    rw [natToCharsAux_step, natToCharsAux_step]
    by_cases hn : n < 10
    · rw [if_pos hn, if_pos hn]
    · rw [if_neg hn, if_neg hn]
      have hf : 1 ≤ f := by
        by_contra hc
        interval_cases f
        simp at h
        omega
      have hf' : 1 ≤ f' := by
        by_contra hc
        interval_cases f'
        simp at h'
        omega
      have hd : n / 10 < 10 ^ f := by
        rw [Nat.div_lt_iff_lt_mul (by norm_num)]
        calc n < 10 ^ (f + 1) := h
          _ = 10 ^ f * 10 := by ring
      have hd' : n / 10 < 10 ^ f' := by
        rw [Nat.div_lt_iff_lt_mul (by norm_num)]
        calc n < 10 ^ (f' + 1) := h'
          _ = 10 ^ f' * 10 := by ring
      rw [ih f' (n / 10) hd hd' hf hf']

theorem natToChars_single (n : Nat) (h : n < 10) : natToChars n = [Nat.digitChar n] := by
  rw [natToChars, natToCharsAux_step, if_pos h]

theorem natToChars_step (x y : Nat) (hx : 1 ≤ x) (hx' : x < 10 ^ 19) (hy : y < 10) :
    natToChars (x * 10 + y) = natToChars x ++ [Nat.digitChar y] := by
  rw [natToChars, natToChars]
  rw [show (20 : Nat) = 19 + 1 from rfl, natToCharsAux_step]
  rw [if_neg (by omega)]
  have hdiv : (x * 10 + y) / 10 = x := by omega
  have hmod : (x * 10 + y) % 10 = y := by omega
  rw [hdiv, hmod]
  congr 1
  exact natToCharsAux_fuel_inv 19 20 x hx' (by calc x < 10 ^ 19 := hx'
    _ < 10 ^ 20 := by norm_num) (by norm_num) (by norm_num)

theorem intToChars_ofNat (n : Nat) : intToChars (n : Int) = natToChars n := by
  rw [intToChars, if_neg (by omega)]
  simp

theorem padded_ofNat (w : Nat) (n : Nat) : padded w ((n : Nat) : Int) = padN w n := by
  rw [padded, padN, intToChars_ofNat]

theorem padN_step (w x y : Nat) (hw : 1 ≤ w) (hw19 : w ≤ 19) (hx : x < 10 ^ w) (hy : y < 10) :
    padN (w + 1) (x * 10 + y) = padN w x ++ [Nat.digitChar y] := by
  by_cases hx0 : x = 0
  · subst hx0
    simp only [Nat.zero_mul, Nat.zero_add]
    rw [padN, padN, natToChars_single y hy, natToChars_single 0 (by norm_num)]
    obtain ⟨w', rfl⟩ : ∃ k, w = k + 1 := ⟨w - 1, by omega⟩
    simp only [List.length_cons, List.length_nil]
    rw [show w' + 1 + 1 - 1 = w' + 1 from rfl, show w' + 1 - 1 = w' from rfl]
    rw [List.replicate_succ' w' '0']
    simp [Nat.digitChar]
  · have hx1 : 1 ≤ x := by omega
    have hx19 : x < 10 ^ 19 := lt_of_lt_of_le hx (Nat.pow_le_pow_right (by norm_num) hw19)
    rw [padN, padN, natToChars_step x y hx1 hx19 hy]
    simp only [List.length_append, List.length_cons, List.length_nil]
    rw [show w + 1 - ((natToChars x).length + (0 + 1)) = w - (natToChars x).length by omega]
    rw [List.append_assoc]

theorem padN_split (w1 w2 x y : Nat) (h1 : 1 ≤ w1) (h2 : 1 ≤ w2) (hw : w1 + w2 ≤ 19)
    (hx : x < 10 ^ w1) (hy : y < 10 ^ w2) :
    padN (w1 + w2) (x * 10 ^ w2 + y) = padN w1 x ++ padN w2 y := by
  induction w2 generalizing y with
  | zero => omega
  | succ k ih =>
    by_cases hk : k = 0
    · subst hk
      simp only [Nat.zero_add, pow_one] at hy ⊢
      rw [padN_step w1 x y h1 (by omega) hx hy]
      congr 1
      rw [padN, natToChars_single y hy]
      simp
    · have hk1 : 1 ≤ k := by omega
      have hyd : y / 10 < 10 ^ k := by
        rw [Nat.div_lt_iff_lt_mul (by norm_num)]
        calc y < 10 ^ (k + 1) := hy
          _ = 10 ^ k * 10 := by ring
      have hsum : x * 10 ^ k + y / 10 < 10 ^ (w1 + k) := by
        have h10 : (10 : Nat) ^ (w1 + k) = 10 ^ w1 * 10 ^ k := pow_add 10 w1 k
        have hxk : x * 10 ^ k ≤ (10 ^ w1 - 1) * 10 ^ k :=
          mul_le_mul_right' (by omega) (10 ^ k)
        rw [Nat.sub_mul, Nat.one_mul] at hxk
        have hp : 1 ≤ (10 : Nat) ^ k := Nat.one_le_pow _ _ (by norm_num)
        have hmv : (10 : Nat) ^ k ≤ 10 ^ w1 * 10 ^ k :=
          Nat.le_mul_of_pos_left _ (by positivity)
        rw [h10]
        omega
      have hrw : x * 10 ^ (k + 1) + y = (x * 10 ^ k + y / 10) * 10 + y % 10 := by
        have h1 : (x * 10 ^ k + y / 10) * 10 + y % 10
            = x * 10 ^ k * 10 + (y / 10 * 10 + y % 10) := by ring
        rw [h1, Nat.div_add_mod' y 10, pow_succ]
        ring
      rw [show w1 + (k + 1) = (w1 + k) + 1 from rfl, hrw]
      rw [padN_step (w1 + k) _ _ (by omega) (by omega) hsum (Nat.mod_lt _ (by norm_num))]
      rw [ih (y / 10) hk1 (by omega) hyd]
      have hy10 : y = (y / 10) * 10 + y % 10 := by omega
      rw [List.append_assoc]
      congr 1
      symm
      calc padN (k + 1) y = padN (k + 1) ((y / 10) * 10 + y % 10) := by rw [← hy10]
        _ = padN k (y / 10) ++ [Nat.digitChar (y % 10)] :=
            padN_step k (y / 10) (y % 10) hk1 (by omega) hyd (Nat.mod_lt _ (by norm_num))

theorem natToCharsAux_length_le (fuel n : Nat) : (natToCharsAux fuel n).length ≤ fuel := by
  induction fuel generalizing n with
  | zero => simp [natToCharsAux]
  | succ f ih =>
    rw [natToCharsAux_step]
    by_cases hn : n < 10
    · rw [if_pos hn]
      simp
    · rw [if_neg hn]
      simp only [List.length_append, List.length_cons, List.length_nil]
      have := ih (n / 10)
      omega

theorem natToChars_length_le (w n : Nat) (h1 : 1 ≤ w) (h19 : w ≤ 19) (hn : n < 10 ^ w) :
    (natToChars n).length ≤ w := by
  rw [natToChars, natToCharsAux_fuel_inv 20 w n
    (lt_of_lt_of_le hn (Nat.pow_le_pow_right (by norm_num) (by omega))) hn (by norm_num) h1]
  exact natToCharsAux_length_le w n

theorem natToChars_ne_nil (n : Nat) : natToChars n ≠ [] := by
  rw [natToChars, natToCharsAux_step]
  by_cases hn : n < 10
  · rw [if_pos hn]
    simp
  · rw [if_neg hn]
    simp

theorem padN_length (w n : Nat) (h : (natToChars n).length ≤ w) : (padN w n).length = w := by
  rw [padN]
  simp only [List.length_append, List.length_replicate]
  omega

theorem stripTrailingZeros_snoc_nonzero (l : List Char) (ch : Char) (h : ch ≠ '0') :
    stripTrailingZeros (l ++ [ch]) = l ++ [ch] := by
  have h1 : (l ++ [ch]).reverse = ch :: l.reverse := by simp
  have h2 : List.dropWhile (fun c => decide (c = '0')) (ch :: l.reverse) = ch :: l.reverse :=
    List.dropWhile_cons_of_neg (by simp [h])
  simp only [stripTrailingZeros, h1, h2]
  simp

theorem stripTrailingZeros_snoc_zero (l : List Char) :
    stripTrailingZeros (l ++ ['0']) = stripTrailingZeros l := by
  have h1 : (l ++ ['0']).reverse = '0' :: l.reverse := by simp
  have h2 : List.dropWhile (fun c => decide (c = '0')) ('0' :: l.reverse)
      = List.dropWhile (fun c => decide (c = '0')) l.reverse :=
    List.dropWhile_cons_of_pos (by simp)
  simp only [stripTrailingZeros, h1, h2]

theorem stripTrailingZeros_length_le (l : List Char) (h : l ≠ []) :
    (stripTrailingZeros l).length ≤ l.length := by
  rw [stripTrailingZeros]
  by_cases he : ((l.reverse.dropWhile (fun c => c = '0')).reverse).isEmpty
  · rw [if_pos he]
    have : 1 ≤ l.length := by
      cases l with
      | nil => exact absurd rfl h
      | cons a t => simp
    simpa using this
  · rw [if_neg he]
    calc ((l.reverse.dropWhile (fun c => c = '0')).reverse).length
        = (l.reverse.dropWhile (fun c => c = '0')).length := by simp
      _ ≤ l.reverse.length := (List.dropWhile_sublist _).length_le
      _ = l.length := by simp

theorem stripTrailingZeros_append_replicate (l : List Char) (k : Nat) :
    stripTrailingZeros (l ++ List.replicate k '0') = stripTrailingZeros l := by
  induction k with
  | zero => simp
  | succ n ih =>
    rw [List.replicate_succ' n '0', ← List.append_assoc, stripTrailingZeros_snoc_zero, ih]

theorem digitChar_ne_zero (k : Nat) (h0 : 0 < k) (h10 : k < 10) : Nat.digitChar k ≠ '0' := by
  interval_cases k <;> decide

theorem padN_three_len (x : Nat) (hx : x < 1000) : (padN 3 x).length = 3 :=
  padN_length 3 x (natToChars_length_le 3 x (by norm_num) (by norm_num) (by omega))

theorem padN_last_digit (w x : Nat) (hw : 1 ≤ w) (hw19 : w + 1 ≤ 19) (hx : x < 10 ^ (w + 1)) :
    padN (w + 1) x = padN w (x / 10) ++ [Nat.digitChar (x % 10)] := by
  have hd : x / 10 < 10 ^ w := by
    rw [Nat.div_lt_iff_lt_mul (by norm_num)]
    calc x < 10 ^ (w + 1) := hx
      _ = 10 ^ w * 10 := by ring
  have := padN_step w (x / 10) (x % 10) hw (by omega) hd (Nat.mod_lt _ (by norm_num))
  calc padN (w + 1) x = padN (w + 1) (x / 10 * 10 + x % 10) := by rw [Nat.div_add_mod' x 10]
    _ = padN w (x / 10) ++ [Nat.digitChar (x % 10)] := this

theorem fracCore (a b c : Nat) (ha : a < 1000) (hb : b < 1000) (hc : c < 10) :
    ((if (decide (0 < ((a : Nat) : Int)) || decide (0 < ((b : Nat) : Int))
            || decide (0 < ((c : Nat) : Int) * 100)) = true then
        '.' :: (padded 3 ((a : Nat) : Int) ++
          if (decide (0 < ((b : Nat) : Int)) || decide (0 < ((c : Nat) : Int) * 100)) = true then
            padded 3 ((b : Nat) : Int) ++
              if 0 < ((c : Nat) : Int) * 100 then padded 1 ((((c : Nat) : Int) * 100).tdiv 100)
              else []
          else [])
      else [])
      = '.' :: stripTrailingZeros (padded 7 ((a * 10000 + b * 10 + c : Nat) : Int)))
    ↔ (¬(a = 0 ∧ b = 0 ∧ c = 0)
        ∧ (c ≠ 0 ∨ (c = 0 ∧ b % 10 ≠ 0) ∨ (b = 0 ∧ c = 0 ∧ a % 10 ≠ 0))) := by
  have htdiv : ((((c : Nat) : Int)) * 100).tdiv 100 = ((c : Nat) : Int) := by
    rw [Int.tdiv_eq_ediv (by positivity) (by norm_num)]
    omega
  have hc100 : (0 < ((c : Nat) : Int) * 100) ↔ 0 < c := by omega
  simp only [htdiv, padded_ofNat, Bool.or_eq_true, decide_eq_true_eq, Int.natCast_pos, hc100]
  have h7 : padN 7 (a * 10000 + b * 10 + c) = padN 3 a ++ (padN 3 b ++ padN 1 c) := by
    have h1 := padN_split 3 4 a (b * 10 + c) (by norm_num) (by norm_num) (by norm_num) ha
      (by omega)
    have h2 := padN_split 3 1 b c (by norm_num) (by norm_num) (by norm_num) hb (by omega)
    norm_num at h1 h2
    rw [show a * 10000 + b * 10 + c = a * 10000 + (b * 10 + c) by ring, h1, h2]
  have hp1 : padN 1 c = [Nat.digitChar c] := by
    rw [padN, natToChars_single c hc]
    simp
  have hL3a : (padN 3 a).length = 3 := padN_three_len a ha
  have hL3b : (padN 3 b).length = 3 := padN_three_len b hb
  rw [h7, hp1]
  by_cases hcpos : 0 < c
  · rw [if_pos (Or.inr hcpos : (0 < a ∨ 0 < b) ∨ 0 < c),
      if_pos (Or.inr hcpos : 0 < b ∨ 0 < c), if_pos hcpos]
    refine iff_of_true ?_ ?_
    · simp only [← List.append_assoc,
        stripTrailingZeros_snoc_nonzero _ _ (digitChar_ne_zero c hcpos hc)]
    · simp only [eq_self_iff_true, true_and, and_true, not_true, false_or, ne_eq]
      omega
  · have hc0 : c = 0 := by omega
    subst hc0
    simp only [Nat.lt_irrefl, or_false, if_false, List.append_nil]
    have hdc0 : Nat.digitChar 0 = '0' := rfl
    rw [hdc0, ← List.append_assoc, stripTrailingZeros_snoc_zero]
    by_cases hbpos : 0 < b
    · rw [if_pos (Or.inr hbpos : 0 < a ∨ 0 < b), if_pos hbpos]
      have hb3 : padN 3 b = padN 2 (b / 10) ++ [Nat.digitChar (b % 10)] :=
        padN_last_digit 2 b (by norm_num) (by norm_num) (by omega)
      have hL2 : (padN 2 (b / 10)).length = 2 := padN_length 2 (b / 10)
        (natToChars_length_le 2 (b / 10) (by norm_num) (by norm_num) (by omega))
      by_cases hbm : b % 10 = 0
      · refine iff_of_false ?_ (by omega)
        intro heq
        have hlen := congrArg List.length heq
        have hne : padN 3 a ++ padN 2 (b / 10) ≠ [] := by
          intro hcon
          have hl := congrArg List.length hcon
          simp only [List.length_append, List.length_nil, hL3a, hL2] at hl
          omega
        have h2 := stripTrailingZeros_length_le (padN 3 a ++ padN 2 (b / 10)) hne
        rw [hb3, hbm, hdc0, ← List.append_assoc, stripTrailingZeros_snoc_zero] at hlen
        simp only [List.length_cons, List.length_append, List.length_nil, hL3a, hL3b, hL2]
          at hlen h2
        omega
      · refine iff_of_true ?_ ?_
        · simp only [hb3, ← List.append_assoc, stripTrailingZeros_snoc_nonzero _ _
            (digitChar_ne_zero (b % 10) (by omega) (by omega))]
        · simp only [eq_self_iff_true, true_and, and_true, not_true, false_or, ne_eq]
          omega
    · have hb0 : b = 0 := by omega
      subst hb0
      simp only [Nat.lt_irrefl, or_false, if_false, List.append_nil]
      have hpz : padN 3 0 = List.replicate 3 '0' := rfl
      rw [hpz, stripTrailingZeros_append_replicate]
      by_cases hapos : 0 < a
      · rw [if_pos hapos]
        have ha3 : padN 3 a = padN 2 (a / 10) ++ [Nat.digitChar (a % 10)] :=
          padN_last_digit 2 a (by norm_num) (by norm_num) (by omega)
        have hL2a : (padN 2 (a / 10)).length = 2 := padN_length 2 (a / 10)
          (natToChars_length_le 2 (a / 10) (by norm_num) (by norm_num) (by omega))
        by_cases ham : a % 10 = 0
        · refine iff_of_false ?_ (by omega)
          intro heq
          have hlen := congrArg List.length heq
          have hne : padN 2 (a / 10) ≠ [] := by
            intro hcon
            have hl := congrArg List.length hcon
            simp only [List.length_nil, hL2a] at hl
            omega
          have h2 := stripTrailingZeros_length_le (padN 2 (a / 10)) hne
          rw [ha3, ham, hdc0, stripTrailingZeros_snoc_zero] at hlen
          simp only [List.length_cons, List.length_append, List.length_nil, hL3a, hL2a]
            at hlen h2
          omega
        · refine iff_of_true ?_ ?_
          · rw [ha3, stripTrailingZeros_snoc_nonzero _ _
              (digitChar_ne_zero (a % 10) (by omega) (by omega))]
          · simp only [eq_self_iff_true, true_and, and_true, not_true, false_or, ne_eq]
            omega
      · have ha0 : a = 0 := by omega
        subst ha0
        simp only [Nat.lt_irrefl, if_false]
        refine iff_of_false (fun heq => List.noConfusion heq) (by omega)

theorem timeComponents_ms (t : Int) (ht : 0 ≤ t) :
    (internal.timeComponentsFromTicks t).2.2.2 = (t.tmod 10000000).tdiv 10000 := by
  simp only [internal.timeComponentsFromTicks, constants.TICKS_PER_DAY,
    constants.TICKS_PER_HOUR, constants.TICKS_PER_MINUTE, constants.TICKS_PER_SECOND,
    constants.TICKS_PER_MILLISECOND]
  rw [Int.tmod_eq_emod ht (by norm_num),
    Int.tmod_eq_emod (Int.emod_nonneg t (by norm_num)) (by norm_num),
    Int.emod_emod_of_dvd t (by norm_num)]
  rw [Int.tmod_eq_emod (Int.emod_nonneg t (by norm_num)) (by norm_num),
    Int.emod_emod_of_dvd t (by norm_num)]
  rw [Int.tmod_eq_emod (Int.emod_nonneg t (by norm_num)) (by norm_num),
    Int.emod_emod_of_dvd t (by norm_num)]
  rw [Int.tmod_eq_emod ht (by norm_num)]
  norm_num

/-- C3 counterexample: the raw-tick constructor `DateTime::DateTime(std::int64_t)`
stores its argument unchanged, so `-1` yields an Instant below the range, and
`operator+` applied to `DateTime::max()` leaves the range as well; the claimed
invariant is not preserved by every operation that yields an Instant. -/
theorem claim_C3_counterexample :
    (DateTime.ofTicks (-1)).m_ticks = -1
  ∧ ¬(0 ≤ (DateTime.ofTicks (-1)).m_ticks)
  ∧ (DateTime.maxValue.addSpan ⟨1⟩).m_ticks = constants.MAX_DATETIME_TICKS + 1
  ∧ ¬((DateTime.maxValue.addSpan ⟨1⟩).m_ticks ≤ constants.MAX_DATETIME_TICKS) := by
  decide

/-- C3 (corrected): default construction, the civil-component constructors and
parsing always yield ticks in `[0, MAX_DATETIME_TICKS]`, but the raw-tick
constructor and Duration arithmetic pass tick values through unchanged, without
clamping or validation, so they do not preserve the range invariant. -/
theorem claim_C3 :
    (0 ≤ DateTime.default.m_ticks
      ∧ DateTime.default.m_ticks ≤ constants.MAX_DATETIME_TICKS)
  ∧ (∀ y m d : Int,
      0 ≤ (DateTime.ofYMD y m d).m_ticks
        ∧ (DateTime.ofYMD y m d).m_ticks ≤ constants.MAX_DATETIME_TICKS)
  ∧ (∀ y m d h mi s : Int,
      0 ≤ (DateTime.ofYMDHMS y m d h mi s).m_ticks
        ∧ (DateTime.ofYMDHMS y m d h mi s).m_ticks ≤ constants.MAX_DATETIME_TICKS)
  ∧ (∀ y m d h mi s ms : Int,
      0 ≤ (DateTime.ofYMDHMSms y m d h mi s ms).m_ticks
        ∧ (DateTime.ofYMDHMSms y m d h mi s ms).m_ticks ≤ constants.MAX_DATETIME_TICKS)
  ∧ (∀ (cs : List Char) (t : Int), fromString cs = some t
        → 0 ≤ t ∧ t ≤ constants.MAX_DATETIME_TICKS)
  ∧ (∀ ticks : Int, (DateTime.ofTicks ticks).m_ticks = ticks)
  ∧ (∀ a b : Int, (DateTime.addSpan ⟨a⟩ ⟨b⟩).m_ticks = a + b)
  ∧ (∀ a b : Int, (DateTime.subSpan ⟨a⟩ ⟨b⟩).m_ticks = a - b) := by
  refine ⟨by decide, ?_, ?_, ?_, fun cs t h => fromString_range cs t h,
    fun _ => rfl, fun _ _ => rfl, fun _ _ => rfl⟩
  · intro y m d
    simp only [DateTime.ofYMD]
    cases hv : internal.isValidDate y m d with
    | false => simp only [hv, Bool.not_false, if_pos]; decide
    | true =>
      simp only [hv, Bool.not_true, Bool.false_eq_true, if_false]
      have hdv := (isValidDate_iff y m d).mp hv
      have := civilTicks_bound y m d 0 0 0 0 hdv.1 hdv.2.1 hdv.2.2.1 hdv.2.2.2.1
        hdv.2.2.2.2.1 hdv.2.2.2.2.2 le_rfl (by norm_num) le_rfl (by norm_num)
        le_rfl (by norm_num) le_rfl (by norm_num)
      simp only [internal.timeToTicks] at this ⊢
      omega
  · intro y m d h mi s
    simp only [DateTime.ofYMDHMS]
    cases hv : (!internal.isValidDate y m d || !internal.isValidTime h mi s 0) with
    | true => simp only [hv, if_pos]; decide
    | false =>
      simp only [hv, Bool.false_eq_true, if_false]
      simp only [Bool.or_eq_false_iff, Bool.not_eq_false'] at hv
      have hdv := (isValidDate_iff y m d).mp hv.1
      have htv := (isValidTime_iff h mi s 0).mp hv.2
      have := civilTicks_bound y m d h mi s 0 hdv.1 hdv.2.1 hdv.2.2.1 hdv.2.2.2.1
        hdv.2.2.2.2.1 hdv.2.2.2.2.2 htv.1 htv.2.1 htv.2.2.1 htv.2.2.2.1
        htv.2.2.2.2.1 htv.2.2.2.2.2.1 le_rfl (by norm_num)
      omega
  · intro y m d h mi s ms
    simp only [DateTime.ofYMDHMSms]
    cases hv : (!internal.isValidDate y m d || !internal.isValidTime h mi s ms) with
    | true => simp only [hv, if_pos]; decide
    | false =>
      simp only [hv, Bool.false_eq_true, if_false]
      simp only [Bool.or_eq_false_iff, Bool.not_eq_false'] at hv
      have hdv := (isValidDate_iff y m d).mp hv.1
      have htv := (isValidTime_iff h mi s ms).mp hv.2
      have hms : 0 ≤ ms * 10000 ∧ ms * 10000 < 10000000 := by omega
      have := civilTicks_bound y m d h mi s (ms * 10000) hdv.1 hdv.2.1 hdv.2.2.1
        hdv.2.2.2.1 hdv.2.2.2.2.1 hdv.2.2.2.2.2 htv.1 htv.2.1 htv.2.2.1 htv.2.2.2.1
        htv.2.2.2.2.1 htv.2.2.2.2.2.1 hms.1 hms.2
      have hsplit : internal.timeToTicks h mi s ms
          = internal.timeToTicks h mi s 0 + ms * 10000 := by
        simp only [internal.timeToTicks, constants.TICKS_PER_MILLISECOND]
        ring
      rw [hsplit]
      omega

/-- C4 counterexample: for the OffsetInstant at ticks 1200000 (00:00:00.12 on
0001-01-01) with zero offset, `internal::formatIso8601` renders the fraction in
full 3-digit groups (".120") while `DateTime::toString(Iso8601Extended)` strips
trailing zeros (".12"), so the extended OffsetInstant form is not the Instant
form with the designator substituted. -/
theorem claim_C4_counterexample :
    DateTime.toStringExtended ⟨1200000⟩ = ("0001-01-01T00:00:00.12Z").toList
  ∧ formatIso8601 ⟨⟨1200000⟩, ⟨0⟩⟩ true = ("0001-01-01T00:00:00.120Z").toList
  ∧ appendOffset (DateTimeOffset.totalOffsetMinutes ⟨⟨1200000⟩, ⟨0⟩⟩) = ['Z']
  ∧ formatIso8601 ⟨⟨1200000⟩, ⟨0⟩⟩ true
      ≠ (DateTime.toStringExtended ⟨1200000⟩).dropLast
          ++ appendOffset (DateTimeOffset.totalOffsetMinutes ⟨⟨1200000⟩, ⟨0⟩⟩) := by
  decide

/-- C4 (corrected): in the basic format `internal::formatIso8601` always equals
the Instant (`DateTime::toString`) rendering with the trailing `Z` replaced by
the offset designator (kept as `Z` for a zero offset); in the extended format
the equality holds exactly when the sub-second fraction is non-zero and its
grouped 3+3+1-digit rendering carries no trailing zero group — i.e. the last
fractional digit is non-zero, or it is zero with the sixth digit non-zero, or
the last four digits are all zero with the third digit non-zero. -/
theorem claim_C4 (t o : Int) (ht : 0 ≤ t) (ht' : t ≤ constants.MAX_DATETIME_TICKS) :
    (formatIso8601 ⟨⟨t⟩, ⟨o⟩⟩ false
        = (DateTime.toStringBasic ⟨t⟩).dropLast
            ++ appendOffset (DateTimeOffset.totalOffsetMinutes ⟨⟨t⟩, ⟨o⟩⟩))
    ∧ ((formatIso8601 ⟨⟨t⟩, ⟨o⟩⟩ true
        = (DateTime.toStringExtended ⟨t⟩).dropLast
            ++ appendOffset (DateTimeOffset.totalOffsetMinutes ⟨⟨t⟩, ⟨o⟩⟩))
      ↔ (t.tmod 10000000 ≠ 0
          ∧ (t.tmod 10 ≠ 0
              ∨ (t.tmod 10 = 0 ∧ (t.tdiv 10).tmod 10 ≠ 0)
              ∨ (t.tmod 10000 = 0 ∧ (t.tdiv 10000).tmod 10 ≠ 0)))) := by
  constructor
  · simp only [formatIso8601, DateTime.toStringBasic, Bool.false_eq_true, if_false]
    rw [List.dropLast_concat]
    simp only [List.append_assoc, List.cons_append, List.singleton_append, List.nil_append]
  · obtain ⟨a, b, c, ha, hb, hc, hsum⟩ :
        ∃ a b c : Nat, a < 1000 ∧ b < 1000 ∧ c < 10
          ∧ t % 10000000 = ((a * 10000 + b * 10 + c : Nat) : Int) := by
      refine ⟨((t % 10000000) / 10000).toNat, ((t % 10000) / 10).toNat, (t % 10).toNat,
        ?_, ?_, ?_, ?_⟩ <;> omega
    have hms : (internal.timeComponentsFromTicks t).2.2.2 = ((a : Nat) : Int) := by
      rw [timeComponents_ms t ht, Int.tmod_eq_emod ht (by norm_num),
        Int.tdiv_eq_ediv (Int.emod_nonneg t (by norm_num)) (by norm_num)]
      omega
    have hus : (t.tmod 10000).tdiv 10 = ((b : Nat) : Int) := by
      rw [Int.tmod_eq_emod ht (by norm_num),
        Int.tdiv_eq_ediv (Int.emod_nonneg t (by norm_num)) (by norm_num)]
      omega
    have hcm : t.tmod 10 = ((c : Nat) : Int) := by
      rw [Int.tmod_eq_emod ht (by norm_num)]
      omega
    have hfr : t.tmod constants.TICKS_PER_SECOND = ((a * 10000 + b * 10 + c : Nat) : Int) := by
      show t.tmod 10000000 = _
      rw [Int.tmod_eq_emod ht (by norm_num)]
      exact hsum
    have hd7 : t.tmod 10000000 = t % 10000000 := Int.tmod_eq_emod ht (by norm_num)
    have hd4 : t.tmod 10000 = t % 10000 := Int.tmod_eq_emod ht (by norm_num)
    have he1 : t.tdiv 10 = t / 10 := Int.tdiv_eq_ediv ht (by norm_num)
    have he4 : t.tdiv 10000 = t / 10000 := Int.tdiv_eq_ediv ht (by norm_num)
    simp only [formatIso8601, DateTime.toStringExtended, if_true]
    rw [List.dropLast_concat]
    rw [hms, hus, hcm, hfr]
    simp only [List.append_assoc, List.cons_append, List.singleton_append, List.nil_append]
    simp only [List.append_right_inj, List.cons_inj_right]
    conv_lhs => rhs; rw [← List.cons_append]
    rw [List.append_left_inj]
    rw [fracCore a b c ha hb hc]
    rw [hd7, hd4, he1, he4,
      show (t / 10).tmod 10 = t / 10 % 10 from
        Int.tmod_eq_emod (Int.ediv_nonneg ht (by norm_num)) (by norm_num),
      show (t / 10000).tmod 10 = t / 10000 % 10 from
        Int.tmod_eq_emod (Int.ediv_nonneg ht (by norm_num)) (by norm_num)]
    omega

/-- C4 witness: the corrected statement instantiated at ticks 1234500 with a
+05:00 offset. -/
theorem claim_C4_witness :
    (formatIso8601 ⟨⟨1234500⟩, ⟨180000000000⟩⟩ false
        = (DateTime.toStringBasic ⟨1234500⟩).dropLast
            ++ appendOffset (DateTimeOffset.totalOffsetMinutes ⟨⟨1234500⟩, ⟨180000000000⟩⟩))
    ∧ ((formatIso8601 ⟨⟨1234500⟩, ⟨180000000000⟩⟩ true
        = (DateTime.toStringExtended ⟨1234500⟩).dropLast
            ++ appendOffset (DateTimeOffset.totalOffsetMinutes ⟨⟨1234500⟩, ⟨180000000000⟩⟩))
      ↔ ((1234500 : Int).tmod 10000000 ≠ 0
          ∧ ((1234500 : Int).tmod 10 ≠ 0
              ∨ ((1234500 : Int).tmod 10 = 0 ∧ ((1234500 : Int).tdiv 10).tmod 10 ≠ 0)
              ∨ ((1234500 : Int).tmod 10000 = 0
                  ∧ ((1234500 : Int).tdiv 10000).tmod 10 ≠ 0)))) :=
  claim_C4 1234500 180000000000 (by decide) (by decide)

end Nfx
